import Mathlib

/-!
Verification of the Forecast Ensemble & Supply Planning Engine
(backend/app/ml/forecasting.py, supply_planning.py, inventory.py,
scenario.py and services/scenario_service.py) against its
natural-language specification.

Shallow embedding conventions:
* Float values are modelled as rationals (`ℚ`); the float operations used
  by the engine (+, *, /, abs, max, comparisons) are exact on the inputs
  the claims quantify over, so no rounding model is needed.
* Calendar dates are modelled as integers (`Int`), one unit per day;
  `(max_date - min_date).days` becomes plain integer subtraction.
* `numpy.sin` and `numpy.pi` are transcendental and have no exact rational
  counterpart; the stub generator takes them as explicit parameters
  (`sin : ℚ → ℚ`, `pi : ℚ`), every theorem quantifies over them.
* The external ML libraries (statsmodels ARIMA, Prophet, XGBoost) are
  modelled as oracle parameters returning `Option (List ℚ)`; `none` plays
  the role of a raised exception/fitting failure.  Everything the
  repository itself does around those calls (length guards, flooring at
  zero, the XGBoost recursive rollout, metric computation, selection) is
  embedded faithfully.
* Python float `inf` (reachable through `_compute_mape`/`_compute_mae`)
  is modelled as `⊤` in `WithTop ℚ`; the Python ordering on
  {finite floats, inf} agrees with the `WithTop ℚ` order.
* Python dictionaries that are built once and iterated in insertion
  order are modelled as association lists in insertion order.
-/

namespace IBP

/-- Dates as integer day numbers (one unit = one day). -/
abbrev Date := Int

/-- Embedding of `app.models.forecast.ForecastPoint`. -/
structure ForecastPoint where
  sku : String
  date : Date
  mean : ℚ
  q10 : ℚ
  q50 : ℚ
  q90 : ℚ
  deriving DecidableEq

/-- Embedding of `app.models.plan.InventoryConstraints`. -/
structure InventoryConstraints where
  target_service_level : ℚ
  max_days_of_cover : Int
  min_days_of_cover : Int
  lead_time_days : Int
  deriving DecidableEq

/-- Embedding of `app.models.plan.RecommendedOrder`. -/
structure RecommendedOrder where
  sku : String
  location : Option String
  order_date : Date
  quantity : ℚ
  order_type : String
  deriving DecidableEq

/-- Embedding of `app.models.plan.ProductionRecommendation`. -/
structure ProductionRecommendation where
  sku : String
  line_id : Option String
  production_date : Date
  quantity : ℚ
  deriving DecidableEq

/-- Embedding of `app.models.plan.PlanKPI`. -/
structure PlanKPI where
  name : String
  value : ℚ
  unit : Option String
  deriving DecidableEq

/-- Embedding of `app.models.plan.PlanResponse`. -/
structure PlanResponse where
  plan_id : String
  forecast_id : String
  orders : List RecommendedOrder
  production : List ProductionRecommendation
  kpis : List PlanKPI
  deriving DecidableEq

/-- Embedding of `app.models.scenario.ScenarioShockType`. -/
inductive ScenarioShockType where
  | demand
  | supply
  | capacity
  | price
  deriving DecidableEq

/-- Embedding of `app.models.scenario.ScenarioShock`. -/
structure ScenarioShock where
  type : ScenarioShockType
  sku : Option String
  location : Option String
  start_date : Date
  end_date : Date
  factor : ℚ
  delta : ℚ
  deriving DecidableEq

/-- Embedding of `app.models.scenario.ScenarioRequest`. -/
structure ScenarioRequest where
  forecast_id : String
  plan_id : Option String
  name : Option String
  shocks : List ScenarioShock
  deriving DecidableEq

/-- Embedding of `app.models.scenario.ScenarioKPI`. -/
structure ScenarioKPI where
  name : String
  base : ℚ
  scenario : ℚ
  delta : ℚ
  unit : Option String
  deriving DecidableEq

/-! ## Inventory helpers (`app/ml/inventory.py`) -/

/-- Demand accumulation step of `summarize_demand`: Python's
`demand_by_sku[p.sku] += p.mean` on a `defaultdict` keeps keys in first
insertion order and adds to an existing key in place. -/
def addDemand (acc : List (String × ℚ)) (sku : String) (v : ℚ) :
    List (String × ℚ) :=
  match acc with
  | [] => [(sku, v)]
  | (s, q) :: rest =>
      if s = sku then (s, q + v) :: rest else (s, q) :: addDemand rest sku v

/-- Loop body of `summarize_demand` (`app/ml/inventory.py`): add the
point's mean to its SKU total and update the running minimum and maximum
dates exactly as the Python `if` chain does. -/
def summarizeStep (acc : List (String × ℚ) × Option Date × Option Date)
    (p : ForecastPoint) : List (String × ℚ) × Option Date × Option Date :=
  (addDemand acc.1 p.sku p.mean,
   match acc.2.1 with
   | none => some p.date
   | some d => if p.date < d then some p.date else some d,
   match acc.2.2 with
   | none => some p.date
   | some d => if d < p.date then some p.date else some d)

/-- Embedding of the body of `summarize_demand`: fold the per-point update
over the artifact's points. -/
def summarizeDemand (points : List ForecastPoint) :
    List (String × ℚ) × Option Date × Option Date :=
  points.foldl summarizeStep ([], none, none)

/-- Invariant tying the running minimum and maximum of the summarize fold
together: either both unset or both set and ordered. -/
def MMInv (acc : List (String × ℚ) × Option Date × Option Date) : Prop :=
  (acc.2.1 = none ∧ acc.2.2 = none) ∨
    ∃ mn mx, acc.2.1 = some mn ∧ acc.2.2 = some mx ∧ mn ≤ mx

/-- Embedding of `compute_safety_stock_for_sku` (`app/ml/inventory.py`). -/
def computeSafetyStockForSku (total_demand : ℚ) (horizon_days : Int)
    (constraints : InventoryConstraints) : ℚ :=
  if horizon_days ≤ 0 then 0
  else
    let avg_daily := total_demand / (horizon_days : ℚ)
    let z_value : ℚ :=
      if (95 / 100 : ℚ) ≤ constraints.target_service_level then 165 / 100 else 1
    avg_daily * (constraints.lead_time_days : ℚ) * z_value

/-! ## Supply planner (`app/ml/supply_planning.py`) -/

/-- Total required quantity for one SKU entry of the demand summary:
`total_demand + safety_stock` as computed inside `generate_supply_plan`. -/
def totalRequired (horizon_days : Int) (constraints : InventoryConstraints)
    (total_demand : ℚ) : ℚ :=
  total_demand + computeSafetyStockForSku total_demand horizon_days constraints

/-- Embedding of `generate_supply_plan` (`app/ml/supply_planning.py`).
The Python loop appends one order when `purchase_quantity > 0`, one
production recommendation when `production_quantity > 0`, and accumulates
`total_required` into `total_volume` for every SKU; an order-preserving
`filterMap` over the demand summary is exactly that loop. -/
def generateSupplyPlan (points : List ForecastPoint)
    (constraints : InventoryConstraints) (location : Option String) :
    List RecommendedOrder × List ProductionRecommendation × List PlanKPI :=
  let summary := summarizeDemand points
  match summary.2.1, summary.2.2 with
  | some min_date, some max_date =>
      let horizon_days : Int := (max_date - min_date) + 1
      let orders := summary.1.filterMap (fun e =>
        let total_required := totalRequired horizon_days constraints e.2
        let purchase_quantity := total_required * (4 / 10)
        if 0 < purchase_quantity then
          some { sku := e.1, location := location, order_date := min_date,
                 quantity := purchase_quantity, order_type := "purchase" }
        else none)
      let production := summary.1.filterMap (fun e =>
        let total_required := totalRequired horizon_days constraints e.2
        let production_quantity := total_required * (6 / 10)
        if 0 < production_quantity then
          some { sku := e.1, line_id := some "LINE-1",
                 production_date := min_date, quantity := production_quantity }
        else none)
      let total_volume :=
        (summary.1.map (fun e => totalRequired horizon_days constraints e.2)).sum
      let kpis : List PlanKPI :=
        [{ name := "Total Volume", value := total_volume, unit := some "units" },
         { name := "Target Service Level",
           value := constraints.target_service_level, unit := some "" }]
      (orders, production, kpis)
  | _, _ => ([], [], [])

/-! ## Scenario engine (`app/ml/scenario.py`, `services/scenario_service.py`) -/

/-- Base volume of a plan as computed at the top of `compute_scenario_kpis`:
sum of all order quantities plus all production quantities. -/
def baseVolume (plan : PlanResponse) : ℚ :=
  (plan.orders.map (fun o => o.quantity)).sum +
    (plan.production.map (fun p => p.quantity)).sum

/-- Factor values of the demand-type shocks of a request, in list order
(the `demand_factors` comprehension of `compute_scenario_kpis`). -/
def demandFactors (request : ScenarioRequest) : List ℚ :=
  (request.shocks.filter (fun shock => shock.type = ScenarioShockType.demand)).map
    (fun shock => shock.factor)

/-- Unweighted mean of the demand-shock factors, `1.0` when there are no
demand shocks (the `demand_factor` computation of `compute_scenario_kpis`). -/
def averageDemandFactor (request : ScenarioRequest) : ℚ :=
  if demandFactors request ≠ [] then
    (demandFactors request).sum / ((demandFactors request).length : ℚ)
  else 1

/-- Embedding of `compute_scenario_kpis` (`app/ml/scenario.py`). -/
def computeScenarioKpis (plan : PlanResponse) (request : ScenarioRequest) :
    List ScenarioKPI :=
  let base_volume := baseVolume plan
  let demand_factor := averageDemandFactor request
  let scenario_volume := base_volume * demand_factor
  let delta_volume := scenario_volume - base_volume
  [{ name := "Total Volume", base := base_volume, scenario := scenario_volume,
     delta := delta_volume, unit := some "units" }]

deriving instance DecidableEq for Except

/-- Client-visible failures of `ScenarioService.run_scenario`: `notFound` is
the HTTP 404 raised when an explicit plan id is unknown, `noBasePlan` the
HTTP 400 raised when no plan can be resolved for the forecast id. -/
inductive ScenarioError where
  | notFound
  | noBasePlan
  deriving DecidableEq

/-- Python truthiness of the `Optional[str]` field `payload.plan_id`:
`None` and the empty string are falsy, every other string is truthy. -/
def strOptTruthy : Option String → Bool
  | none => false
  | some s => s ≠ ""

/-- Base-plan resolution of `ScenarioService.run_scenario`
(`services/scenario_service.py`): under `if payload.plan_id:` a truthy plan
id is looked up in the store's plan dict (404 when absent); otherwise the
first plan in store insertion order whose `forecast_id` matches is used
(400 when none matches).  `plans` is the store's plan dict as an
association list in insertion order. -/
def resolveBasePlan (plans : List (String × PlanResponse))
    (payload : ScenarioRequest) : Except ScenarioError PlanResponse :=
  if strOptTruthy payload.plan_id then
    match plans.lookup (payload.plan_id.getD "") with
    | some plan => Except.ok plan
    | none => Except.error ScenarioError.notFound
  else
    match (plans.map Prod.snd).find?
        (fun candidate => candidate.forecast_id == payload.forecast_id) with
    | some plan => Except.ok plan
    | none => Except.error ScenarioError.noBasePlan

/-! ## Forecasting (`app/ml/forecasting.py`) -/

/-- Embedding of `numpy.linspace(0.0, stop, num, endpoint=False)`:
`num` evenly spaced values starting at 0 with step `stop / num`. -/
def linspaceNoEndpoint (stop : ℚ) (num : ℕ) : List ℚ :=
  (List.range num).map (fun (i : ℕ) => stop * (i : ℚ) / (num : ℚ))

/-- Embedding of `numpy.linspace(start, stop, num)` (endpoint included):
value `i` is `start + (stop - start) * i / (num - 1)`.  For `num = 1` the
rational convention `x / 0 = 0` gives `[start]`, exactly numpy's result. -/
def linspaceEndpoint (start stop : ℚ) (num : ℕ) : List ℚ :=
  (List.range num).map
    (fun (i : ℕ) => start + (stop - start) * (i : ℚ) / ((num : ℚ) - 1))

/-- Embedding of `_generate_stub_forecast` (`app/ml/forecasting.py`).
`sinF` and `pi` stand for `numpy.sin` and `numpy.pi`; the horizon is the
natural-number length of the requested date index (the Python guard
`horizon <= 0` becomes `horizon = 0`).  Elementwise numpy arithmetic over
arrays of one shared length is embedded with `zip`. -/
def generateStubForecast (sinF : ℚ → ℚ) (pi : ℚ) (base : ℚ) (horizon : ℕ) :
    List ℚ :=
  if horizon = 0 then []
  else
    let steps := linspaceNoEndpoint (5 / 2 * pi) horizon
    let seasonal := steps.map (fun s => 12 / 100 * sinF s)
    let trend := linspaceEndpoint (-(8 / 100)) (8 / 100) horizon
    let raw := (seasonal.zip trend).map (fun st => base * (1 + st.1 + st.2))
    let noise := steps.map (fun s => 5 / 100 * base * sinF (s * (17 / 10)))
    let values := (raw.zip noise).map (fun rn => rn.1 + rn.2)
    values.map (fun v => max v 0)

/-- Embedding of `_compute_mape` (`app/ml/forecasting.py`): mean of
`|(actual - predicted) / actual|` over the positions whose actual value is
positive; `numpy.inf` (no positive actual) is `⊤`. -/
def computeMape (y_true y_pred : List ℚ) : WithTop ℚ :=
  let pairs := (y_true.zip y_pred).filter (fun p => 0 < p.1)
  if pairs = [] then ⊤
  else ((pairs.map (fun p => |(p.1 - p.2) / p.1|)).sum / (pairs.length : ℚ) : ℚ)

/-- Embedding of `_compute_mae` (`app/ml/forecasting.py`): mean absolute
error, `⊤` (numpy `inf`) when either series is empty.  The two series
always have equal length at the call sites. -/
def computeMae (y_true y_pred : List ℚ) : WithTop ℚ :=
  if y_true = [] ∨ y_pred = [] then ⊤
  else
    (((y_true.zip y_pred).map (fun p => |p.1 - p.2|)).sum /
      ((y_true.zip y_pred).length : ℚ) : ℚ)

/-- Oracle bundle for the external libraries used by the forecasting
module.  `rawArima series horizon` models `ARIMA(...).fit().forecast(h)`
on the series values (`none` = exception), `rawProphet` models a fitted
Prophet predicting at an explicit date list, `xgbFit` models training an
`XGBRegressor` on single-lag pairs and returns the trained one-step
predictor (`none` = exception while fitting or predicting).  `sinF`/`pi`
model `numpy.sin`/`numpy.pi` for the stub generator. -/
structure StrategyOracles where
  rawArima : List ℚ → ℕ → Option (List ℚ)
  rawProphet : List (Date × ℚ) → List Date → Option (List ℚ)
  xgbFit : List (ℚ × ℚ) → Option (ℚ → ℚ)
  sinF : ℚ → ℚ
  pi : ℚ

/-- Embedding of `_forecast_arima` (`app/ml/forecasting.py`): skipped when
the series has fewer than 4 points or the horizon is empty, otherwise the
library forecast floored at 0 (`np.maximum(fc, 0.0)`); a library failure
(`none`) is propagated as "not applicable". -/
def forecastArima (O : StrategyOracles) (series : List (Date × ℚ))
    (horizon : ℕ) : Option (List ℚ) :=
  if series.length < 4 ∨ horizon = 0 then none
  else (O.rawArima (series.map Prod.snd) horizon).map
    (List.map (fun x => max x 0))

/-- Embedding of `_forecast_prophet` (`app/ml/forecasting.py`): skipped
when the series has fewer than 4 points or the date list is empty,
otherwise the library prediction floored at 0. -/
def forecastProphet (O : StrategyOracles) (series : List (Date × ℚ))
    (horizon_dates : List Date) : Option (List ℚ) :=
  if series.length < 4 ∨ horizon_dates = [] then none
  else (O.rawProphet series horizon_dates).map (List.map (fun x => max x 0))

/-- Recursive one-step rollout of `_forecast_xgb`: predict from the last
known value, floor at 0, feed the prediction back in. -/
def xgbRollout (predict : ℚ → ℚ) : ℕ → ℚ → List ℚ
  | 0, _ => []
  | Nat.succ k, history =>
      let pred := max (predict history) 0
      pred :: xgbRollout predict k pred

/-- Embedding of `_forecast_xgb` (`app/ml/forecasting.py`): skipped when
the series has fewer than 6 points or the horizon is empty; otherwise a
single-lag training set of consecutive value pairs is built, the regressor
fitted (`none` = exception) and the horizon forecast produced by the
recursive rollout starting from the last series value. -/
def forecastXgb (O : StrategyOracles) (series : List (Date × ℚ))
    (horizon : ℕ) : Option (List ℚ) :=
  if series.length < 6 ∨ horizon = 0 then none
  else
    let values := series.map Prod.snd
    let pairs := values.zip values.tail
    match O.xgbFit pairs with
    | none => none
    | some predict => some (xgbRollout predict horizon (values.getLastD 0))

/-- Base level used by the stub paths of `_select_model_and_forecast`:
`float(series.mean()) if len(series) > 0 else 100.0`. -/
def seriesBase (values : List ℚ) : ℚ :=
  if values = [] then 100 else values.sum / (values.length : ℚ)

/-- Membership test of `forced_model in {"arima", "prophet", "xgboost",
"stub"}`. -/
def knownModelName (name : String) : Bool :=
  name == "arima" || name == "prophet" || name == "xgboost" || name == "stub"

/-- Embedding of the inner `_forecast_with_name` closure of
`_select_model_and_forecast`: run the named strategy on the full series
for the real horizon. -/
def forecastWithName (O : StrategyOracles) (series : List (Date × ℚ))
    (horizon_dates : List Date) (name : String) : Option (List ℚ) × String :=
  if name = "arima" then (forecastArima O series horizon_dates.length, "arima")
  else if name = "prophet" then
    (forecastProphet O series horizon_dates, "prophet")
  else if name = "xgboost" then
    (forecastXgb O series horizon_dates.length, "xgboost")
  else if name = "stub" then
    (some (generateStubForecast O.sinF O.pi (seriesBase (series.map Prod.snd))
      horizon_dates.length), "stub")
  else (none, "stub")

/-- Validation-metric block of `_select_model_and_forecast`: holdout of the
trailing `min(3, max(1, len // 4))` points, each strategy run on the
training prefix, MAPE and MAE recorded per succeeding strategy.  The dict
is modelled as an association list in insertion order (arima entries, then
prophet, then xgb). -/
def validationMetrics (O : StrategyOracles) (series : List (Date × ℚ)) :
    List (String × WithTop ℚ) :=
  let n_val := min 3 (max 1 (series.length / 4))
  let train := series.take (series.length - n_val)
  let val_true := (series.drop (series.length - n_val)).map Prod.snd
  let arimaPart :=
    match forecastArima O train n_val with
    | some fc =>
        [("arima_mape", computeMape val_true fc),
         ("arima_mae", computeMae val_true fc)]
    | none => []
  let valStart := ((train.drop (train.length - n_val)).map Prod.fst).headD 0
  let valDates := (List.range n_val).map (fun (i : ℕ) => valStart + (i : Int))
  let prophetPart :=
    match forecastProphet O train valDates with
    | some fc =>
        [("prophet_mape", computeMape val_true fc),
         ("prophet_mae", computeMae val_true fc)]
    | none => []
  let xgbPart :=
    match forecastXgb O train n_val with
    | some fc =>
        [("xgb_mape", computeMape val_true fc),
         ("xgb_mae", computeMae val_true fc)]
    | none => []
  arimaPart ++ prophetPart ++ xgbPart

/-- Candidate entry `[(name, mape)]` when the metric is present, `[]`
otherwise. -/
def optEntry (name : String) (v : Option (WithTop ℚ)) :
    List (String × WithTop ℚ) :=
  match v with
  | some x => [(name, x)]
  | none => []

/-- Candidate table of the auto-selection block: one `(strategy, mape)`
entry per `*_mape` key present in the metrics dict, in the fixed order
arima, prophet, xgboost (dict insertion order). -/
def scoreCandidates (metrics : List (String × WithTop ℚ)) :
    List (String × WithTop ℚ) :=
  optEntry "arima" (metrics.lookup "arima_mape") ++
    optEntry "prophet" (metrics.lookup "prophet_mape") ++
    optEntry "xgboost" (metrics.lookup "xgb_mape")

/-- Embedding of `min(score_candidates, key=score_candidates.get)`:
CPython's `min` scans in iteration order and replaces the best only on a
strictly smaller key, so the first key attaining the minimum wins. -/
def minFirst : List (String × WithTop ℚ) → Option String
  | [] => none
  | c :: rest =>
      some ((rest.foldl (fun best x => if x.2 < best.2 then x else best) c).1)

/-- Result triple of `_select_model_and_forecast`. -/
structure SelectResult where
  forecast : List ℚ
  chosen : String
  metrics : List (String × WithTop ℚ)
  deriving DecidableEq

/-- Auto-selection tail of `_select_model_and_forecast` (the code past the
forced-model block): stub when the metrics dict is empty, stub when no
`*_mape` candidate exists, otherwise run the minimum-MAPE strategy on the
full series, falling back to stub if that final run fails. -/
def autoSelectAndForecast (O : StrategyOracles) (series : List (Date × ℚ))
    (horizon_dates : List Date) (metrics : List (String × WithTop ℚ)) :
    SelectResult :=
  let stubFc := generateStubForecast O.sinF O.pi
    (seriesBase (series.map Prod.snd)) horizon_dates.length
  if metrics = [] then { forecast := stubFc, chosen := "stub", metrics := [] }
  else
    match minFirst (scoreCandidates metrics) with
    | none => { forecast := stubFc, chosen := "stub", metrics := metrics }
    | some best_model =>
        match forecastWithName O series horizon_dates best_model with
        | (some fc, chosen) =>
            { forecast := fc, chosen := chosen, metrics := metrics }
        | (none, _) =>
            { forecast := stubFc, chosen := "stub", metrics := metrics }

/-- Embedding of `_select_model_and_forecast` (`app/ml/forecasting.py`). -/
def selectModelAndForecast (O : StrategyOracles) (series : List (Date × ℚ))
    (horizon_dates : List Date) (forced_model : Option String) :
    SelectResult :=
  let horizon := horizon_dates.length
  let stubFc := generateStubForecast O.sinF O.pi
    (seriesBase (series.map Prod.snd)) horizon
  if series.length < 4 ∨ horizon = 0 then
    { forecast := stubFc, chosen := "stub", metrics := [] }
  else
    let metrics := validationMetrics O series
    let forcedKnown :=
      match forced_model with
      | some name => knownModelName name
      | none => false
    if forcedKnown then
      match forecastWithName O series horizon_dates (forced_model.getD "") with
      | (some fc, chosen) =>
          { forecast := fc, chosen := chosen, metrics := metrics }
      | (none, _) => { forecast := stubFc, chosen := "stub", metrics := metrics }
    else autoSelectAndForecast O series horizon_dates metrics

/-- Numeric code recorded as `"{sku}.chosen_model"` by the orchestrator. -/
def chosenModelCode (chosen : String) : ℚ :=
  if chosen = "stub" then 0
  else if chosen = "arima" then 1
  else if chosen = "prophet" then 2
  else if chosen = "xgboost" then 3
  else -1

/-- Point assembly of the orchestrator's inner loop: one ForecastPoint
per `zip(date_index, mean_values)` element, with `q50 = mean`,
`q10 = mean * 0.8` and `q90 = mean * 1.2`. -/
def mkForecastPoint (sku : String) (dm : Date × ℚ) : ForecastPoint :=
  { sku := sku, date := dm.1, mean := dm.2, q10 := dm.2 * (8 / 10),
    q50 := dm.2, q90 := dm.2 * (12 / 10) }

/-- Per-SKU body of the orchestrator's loop in `generate_ensemble_forecast`:
an empty history takes the stub path with base 100.0, otherwise the model
selector runs; returns (mean values, chosen model, metrics).  `hist sku`
stands for `_prepare_history(sku, request.location)`, whose data source is
external to the engine. -/
def skuForecast (O : StrategyOracles) (hist : String → List (Date × ℚ))
    (dateIndex : List Date) (forced_model : Option String) (sku : String) :
    List ℚ × String × List (String × WithTop ℚ) :=
  let history := hist sku
  if history = [] then
    (generateStubForecast O.sinF O.pi 100 dateIndex.length, "stub", [])
  else
    let r := selectModelAndForecast O history dateIndex forced_model
    (r.forecast, r.chosen, r.metrics)

/-- Embedding of `generate_ensemble_forecast` (`app/ml/forecasting.py`).
`dateIndex` is the embedding of `pd.date_range(start, end, freq)`; the
returned triple is (points, per-SKU chosen model, flat metrics mapping in
insertion order).  Each point gets `q50 = mean`, `q10 = mean * 0.8`,
`q90 = mean * 1.2`, and one point is appended per `zip(date_index,
mean_values)` element per SKU, in request order. -/
def generateEnsembleForecast (O : StrategyOracles)
    (hist : String → List (Date × ℚ)) (sku_list : List String)
    (dateIndex : List Date) (forced_model : Option String) :
    List ForecastPoint × List (String × String) × List (String × WithTop ℚ) :=
  let results := sku_list.map
    (fun sku => (sku, skuForecast O hist dateIndex forced_model sku))
  let points := results.flatMap (fun r =>
    (dateIndex.zip r.2.1).map (mkForecastPoint r.1))
  let per_sku_model := results.map (fun r => (r.1, r.2.2.1))
  let global_metrics := results.flatMap (fun r =>
    r.2.2.2.map (fun kv => (r.1 ++ "." ++ kv.1, kv.2)) ++
      [(r.1 ++ ".chosen_model", (chosenModelCode r.2.2.1 : WithTop ℚ))])
  (points, per_sku_model, global_metrics)

/-- Daily date index `pd.date_range(start, end, freq="D")`: every day from
`start_date` to `end_date` inclusive, empty when `end_date < start_date`. -/
def dateRangeDaily (start_date end_date : Date) : List Date :=
  (List.range (end_date + 1 - start_date).toNat).map
    (fun (i : ℕ) => start_date + (i : Int))

/-! ## Specification-side definitions

The following definitions are written from the specification's words, not
from the source; they exist to be compared with the source-derived
definitions above. -/

/-- Boolean test that `a` is at most every value present in `o`. -/
def leAllOpt (a : WithTop ℚ) (o : Option (WithTop ℚ)) : Bool :=
  match o with
  | none => true
  | some v => decide (a ≤ v)

/-- Modelled from the spec: "Select the strategy with the lowest MAPE;
ties broken by strategy priority order {arima, prophet, xgboost} (first
strategy in this order wins ties)" — over all strategies that produced a
validation MAPE, without any finiteness filter.  `none` when no strategy
produced a validation MAPE. -/
def specSelectAll (am pm xm : Option (WithTop ℚ)) : Option String :=
  match am, pm, xm with
  | none, none, none => none
  | _, _, _ =>
      match am with
      | some a =>
          if leAllOpt a pm && leAllOpt a xm then some "arima"
          else
            match pm with
            | some p => if leAllOpt p xm then some "prophet" else some "xgboost"
            | none => some "xgboost"
      | none =>
          match pm with
          | some p => if leAllOpt p xm then some "prophet" else some "xgboost"
          | none => some "xgboost"

/-- Infinite validation MAPEs dropped, as the claim's "considering only
strategies whose validation MAPE is finite" demands. -/
def finiteOnly : Option (WithTop ℚ) → Option (WithTop ℚ)
  | some v => if v = ⊤ then none else some v
  | none => none

/-- Modelled from the claim's words for C1: lowest finite MAPE with
priority tie-break, `none` ("fall back to Stub") when no strategy has a
finite validation MAPE. -/
def specSelectClaim (am pm xm : Option (WithTop ℚ)) : Option String :=
  specSelectAll (finiteOnly am) (finiteOnly pm) (finiteOnly xm)

/-! ## Concrete example inputs used by counterexamples and witnesses -/

/-- Oracle bundle in which every external library call fails and the
transcendental functions are the zero function; point counts, lengths and
selection control flow do not depend on these values. -/
def exOraclesNone : StrategyOracles :=
  { rawArima := fun _ _ => none, rawProphet := fun _ _ => none,
    xgbFit := fun _ => none, sinF := fun _ => 0, pi := 0 }

/-- History source with no rows for any SKU. -/
def exHistEmpty : String → List (Date × ℚ) := fun _ => []

/-- Oracle bundle whose ARIMA always forecasts the constant 1 and whose
other strategies fail. -/
def exOraclesC1 : StrategyOracles :=
  { rawArima := fun _ h => some (List.replicate h 1),
    rawProphet := fun _ _ => none,
    xgbFit := fun _ => none, sinF := fun _ => 0, pi := 0 }

/-- Five-day history whose holdout point (the last one) has quantity 0,
making every validation MAPE infinite. -/
def exSeriesC1 : List (Date × ℚ) := [(0, 1), (1, 1), (2, 1), (3, 1), (4, 0)]

/-- Oracle bundle whose ARIMA succeeds only on a 4-point series (the
validation training prefix) and raises on the full 5-point series. -/
def exOraclesC5 : StrategyOracles :=
  { rawArima := fun v h => if v.length = 4 then some (List.replicate h 1)
      else none,
    rawProphet := fun _ _ => none,
    xgbFit := fun _ => none, sinF := fun _ => 0, pi := 0 }

/-- Five-day constant history. -/
def exSeriesC5 : List (Date × ℚ) := [(0, 1), (1, 1), (2, 1), (3, 1), (4, 1)]

/-- Stored plan used by the scenario resolution examples. -/
def exPlan : PlanResponse :=
  { plan_id := "p1", forecast_id := "f1", orders := [], production := [],
    kpis := [] }

/-- Plan store holding exactly `exPlan` under key "p1". -/
def exStore : List (String × PlanResponse) := [("p1", exPlan)]

/-- Scenario request carrying the explicit plan id `""` (a present but
falsy string). -/
def exRequestEmptyId : ScenarioRequest :=
  { forecast_id := "f1", plan_id := some "", name := none, shocks := [] }

/-- Plan with one order of quantity 10 and one production entry of
quantity 15. -/
def exPlanC4 : PlanResponse :=
  { plan_id := "p1", forecast_id := "f1",
    orders := [{ sku := "A", location := none, order_date := 0,
                 quantity := 10, order_type := "purchase" }],
    production := [{ sku := "A", line_id := some "LINE-1",
                     production_date := 0, quantity := 15 }],
    kpis := [] }

/-- Scenario request containing one supply shock and no demand shock. -/
def exRequestC4 : ScenarioRequest :=
  { forecast_id := "f1", plan_id := none, name := none,
    shocks := [{ type := ScenarioShockType.supply, sku := none,
                 location := none, start_date := 0, end_date := 1,
                 factor := 2, delta := 0 }] }

/-- One-point forecast artifact: SKU "A", day 0, mean 10. -/
def exPoints : List ForecastPoint :=
  [{ sku := "A", date := 0, mean := 10, q10 := 8, q50 := 10, q90 := 12 }]

/-- Constraints with service level 0.95 and lead time 10 days. -/
def exConstraints : InventoryConstraints :=
  { target_service_level := 95 / 100, max_days_of_cover := 90,
    min_days_of_cover := 0, lead_time_days := 10 }

/-! ## Helper lemmas about the stub generator -/

/-- Closed form of the stub generator: value `i` of horizon `n` is
`max 0 (base * (1 + 0.12 * sin(phase) + trend_i) + 0.05 * base *
sin(1.7 * phase))` with `phase = i / n * 2.5 * pi` and `trend_i`
interpolated linearly from `-0.08` to `0.08`. -/
theorem generateStubForecast_closed_form (s : ℚ → ℚ) (pi base : ℚ) (n : ℕ) :
    generateStubForecast s pi base n =
      (List.range n).map (fun (i : ℕ) =>
        max 0 (base * (1 + 12 / 100 * s ((i : ℚ) / (n : ℚ) * (5 / 2 * pi)) +
            (-(8 / 100) + 16 / 100 * (i : ℚ) / ((n : ℚ) - 1))) +
          5 / 100 * base * s (17 / 10 * ((i : ℚ) / (n : ℚ) * (5 / 2 * pi))))) := by
  by_cases hn : n = 0
  · subst hn
    simp [generateStubForecast]
  · simp only [generateStubForecast, hn, if_false, linspaceNoEndpoint,
      linspaceEndpoint, List.map_map, List.zip_map', List.map_map]
    refine List.map_congr_left (fun i _ => ?_)
    simp only [Function.comp_apply]
    have h1 : 5 / 2 * pi * (i : ℚ) / (n : ℚ) =
        (i : ℚ) / (n : ℚ) * (5 / 2 * pi) := by ring
    have h2 : (i : ℚ) / (n : ℚ) * (5 / 2 * pi) * (17 / 10) =
        17 / 10 * ((i : ℚ) / (n : ℚ) * (5 / 2 * pi)) := by ring
    have h3 : -(8 / 100) + (8 / 100 - -(8 / 100)) * (i : ℚ) / ((n : ℚ) - 1) =
        -(8 / 100) + 16 / 100 * (i : ℚ) / ((n : ℚ) - 1) := by ring
    rw [h1, h2, h3, max_comm]

/-- Length of the stub forecast equals the requested horizon. -/
theorem generateStubForecast_length (s : ℚ → ℚ) (pi base : ℚ) (n : ℕ) :
    (generateStubForecast s pi base n).length = n := by
  rw [generateStubForecast_closed_form, List.length_map, List.length_range]

/-- Every stub forecast value is non-negative. -/
theorem generateStubForecast_nonneg (s : ℚ → ℚ) (pi base : ℚ) (n : ℕ) :
    ∀ x ∈ generateStubForecast s pi base n, 0 ≤ x := by
  rw [generateStubForecast_closed_form]
  intro x hx
  obtain ⟨i, _, rfl⟩ := List.mem_map.mp hx
  exact le_max_left 0 _

/-- First-match decomposition of `List.find?`: a found element splits the
list into an unmatched prefix, the element, and a tail. -/
theorem find?_first_split {α : Type} (p : α → Bool) (l : List α) (a : α)
    (h : l.find? p = some a) :
    ∃ pre post, l = pre ++ a :: post ∧ p a = true ∧ ∀ q ∈ pre, p q = false := by
  induction l with
  | nil => simp at h
  | cons x xs ih =>
      by_cases hx : p x
      · rw [List.find?_cons_of_pos _ hx] at h
        obtain rfl : x = a := by injection h
        exact ⟨[], xs, rfl, hx, by simp⟩
      · rw [List.find?_cons_of_neg _ hx] at h
        obtain ⟨pre, post, rfl, hpa, hpre⟩ := ih h
        refine ⟨x :: pre, post, rfl, hpa, ?_⟩
        intro q hq
        rcases List.mem_cons.mp hq with rfl | hq
        · exact Bool.eq_false_iff.mpr hx
        · exact hpre q hq

/-! ## Helper lemmas about the demand summary and the planner -/

/-- Keys of `addDemand`: unchanged when the SKU is already present,
appended at the end otherwise. -/
theorem addDemand_keys (acc : List (String × ℚ)) (sku : String) (v : ℚ) :
    (addDemand acc sku v).map Prod.fst =
      if sku ∈ acc.map Prod.fst then acc.map Prod.fst
      else acc.map Prod.fst ++ [sku] := by
  induction acc with
  | nil => simp [addDemand]
  | cons e rest ih =>
      obtain ⟨s, q⟩ := e
      by_cases hs : s = sku
      · subst hs
        simp [addDemand]
      · have hne : ¬sku = s := fun h => hs h.symm
        simp only [addDemand, if_neg hs, List.map_cons, ih, List.mem_cons]
        by_cases hmem : sku ∈ rest.map Prod.fst
        · simp [hmem, hne]
        · simp [hmem, hne]

/-- `addDemand` preserves distinctness of the SKU keys. -/
theorem addDemand_keys_nodup (acc : List (String × ℚ)) (sku : String) (v : ℚ)
    (h : (acc.map Prod.fst).Nodup) :
    ((addDemand acc sku v).map Prod.fst).Nodup := by
  rw [addDemand_keys]
  split
  · exact h
  · next hmem =>
      exact List.nodup_append.mpr
        ⟨h, List.nodup_singleton sku, by simpa using hmem⟩

/-- `addDemand` preserves non-negativity of the accumulated totals. -/
theorem addDemand_values_nonneg (acc : List (String × ℚ)) (sku : String)
    (v : ℚ) (hacc : ∀ e ∈ acc, 0 ≤ e.2) (hv : 0 ≤ v) :
    ∀ e ∈ addDemand acc sku v, 0 ≤ e.2 := by
  induction acc with
  | nil =>
      intro e he
      simp only [addDemand, List.mem_singleton] at he
      subst he
      exact hv
  | cons a rest ih =>
      obtain ⟨s, q⟩ := a
      intro e he
      by_cases hs : s = sku
      · subst hs
        rw [addDemand, if_pos rfl] at he
        rcases List.mem_cons.mp he with rfl | he2
        · exact add_nonneg (hacc (s, q) (List.mem_cons_self _ _)) hv
        · exact hacc e (List.mem_cons_of_mem _ he2)
      · rw [addDemand, if_neg hs] at he
        rcases List.mem_cons.mp he with rfl | he2
        · exact hacc (s, q) (List.mem_cons_self _ _)
        · exact ih (fun x hx => hacc x (List.mem_cons_of_mem _ hx)) e he2

/-- Folding the summarize step keeps the SKU keys distinct. -/
theorem foldl_summarizeStep_keys_nodup (points : List ForecastPoint)
    (acc : List (String × ℚ) × Option Date × Option Date)
    (h : (acc.1.map Prod.fst).Nodup) :
    (((points.foldl summarizeStep acc).1).map Prod.fst).Nodup := by
  induction points generalizing acc with
  | nil => exact h
  | cons p rest ih =>
      exact ih (summarizeStep acc p) (addDemand_keys_nodup acc.1 p.sku p.mean h)

/-- Distinctness of the demand-summary keys. -/
theorem summarizeDemand_keys_nodup (points : List ForecastPoint) :
    (((summarizeDemand points).1).map Prod.fst).Nodup :=
  foldl_summarizeStep_keys_nodup points ([], none, none) (by simp)

/-- Folding the summarize step keeps the accumulated totals non-negative
when every point mean is. -/
theorem foldl_summarizeStep_values_nonneg (points : List ForecastPoint)
    (acc : List (String × ℚ) × Option Date × Option Date)
    (hacc : ∀ e ∈ acc.1, 0 ≤ e.2) (hp : ∀ p ∈ points, 0 ≤ p.mean) :
    ∀ e ∈ (points.foldl summarizeStep acc).1, 0 ≤ e.2 := by
  induction points generalizing acc with
  | nil => exact hacc
  | cons p rest ih =>
      exact ih (summarizeStep acc p)
        (addDemand_values_nonneg acc.1 p.sku p.mean hacc (hp p (by simp)))
        (fun q hq => hp q (by simp [hq]))

/-- Non-negativity of the demand-summary totals. -/
theorem summarizeDemand_values_nonneg (points : List ForecastPoint)
    (hp : ∀ p ∈ points, 0 ≤ p.mean) :
    ∀ e ∈ (summarizeDemand points).1, 0 ≤ e.2 :=
  foldl_summarizeStep_values_nonneg points ([], none, none) (by simp) hp

/-- One summarize step always leaves the running minimum set. -/
theorem summarizeStep_min_isSome (acc : List (String × ℚ) × Option Date ×
    Option Date) (p : ForecastPoint) : ((summarizeStep acc p).2.1).isSome := by
  unfold summarizeStep
  cases acc.2.1 with
  | none => rfl
  | some d => by_cases hc : p.date < d <;> simp [hc]

/-- One summarize step always leaves the running maximum set. -/
theorem summarizeStep_max_isSome (acc : List (String × ℚ) × Option Date ×
    Option Date) (p : ForecastPoint) : ((summarizeStep acc p).2.2).isSome := by
  unfold summarizeStep
  cases acc.2.2 with
  | none => rfl
  | some d => by_cases hc : d < p.date <;> simp [hc]

/-- Once the running minimum is set, folding keeps it set. -/
theorem foldl_summarizeStep_min_isSome (points : List ForecastPoint)
    (acc : List (String × ℚ) × Option Date × Option Date)
    (h : (acc.2.1).isSome) :
    ((points.foldl summarizeStep acc).2.1).isSome := by
  induction points generalizing acc with
  | nil => exact h
  | cons p rest ih => exact ih (summarizeStep acc p) (summarizeStep_min_isSome acc p)

/-- Once the running maximum is set, folding keeps it set. -/
theorem foldl_summarizeStep_max_isSome (points : List ForecastPoint)
    (acc : List (String × ℚ) × Option Date × Option Date)
    (h : (acc.2.2).isSome) :
    ((points.foldl summarizeStep acc).2.2).isSome := by
  induction points generalizing acc with
  | nil => exact h
  | cons p rest ih => exact ih (summarizeStep acc p) (summarizeStep_max_isSome acc p)

/-- A non-empty artifact has both summary dates set. -/
theorem summarizeDemand_isSome_of_ne_nil (points : List ForecastPoint)
    (h : points ≠ []) :
    ((summarizeDemand points).2.1).isSome ∧
      ((summarizeDemand points).2.2).isSome := by
  cases points with
  | nil => exact absurd rfl h
  | cons p rest =>
      exact ⟨foldl_summarizeStep_min_isSome rest _ (summarizeStep_min_isSome _ p),
        foldl_summarizeStep_max_isSome rest _ (summarizeStep_max_isSome _ p)⟩

/-- One summarize step preserves the min/max invariant. -/
theorem summarizeStep_mminv (acc : List (String × ℚ) × Option Date ×
    Option Date) (p : ForecastPoint) (h : MMInv acc) :
    MMInv (summarizeStep acc p) := by
  rcases h with ⟨h1, h2⟩ | ⟨a, b, h1, h2, hab⟩
  · exact Or.inr ⟨p.date, p.date, by simp [summarizeStep, h1],
      by simp [summarizeStep, h2], le_refl _⟩
  · refine Or.inr ⟨if p.date < a then p.date else a,
      if b < p.date then p.date else b, ?_, ?_, ?_⟩
    · simp only [summarizeStep, h1]
      split <;> simp
    · simp only [summarizeStep, h2]
      split <;> simp
    · split <;> split <;> linarith

/-- Folding preserves the min/max invariant. -/
theorem foldl_summarizeStep_mminv (points : List ForecastPoint)
    (acc : List (String × ℚ) × Option Date × Option Date) (h : MMInv acc) :
    MMInv (points.foldl summarizeStep acc) := by
  induction points generalizing acc with
  | nil => exact h
  | cons p rest ih => exact ih (summarizeStep acc p) (summarizeStep_mminv acc p h)

/-- The summary's minimum date is at most its maximum date. -/
theorem summarizeDemand_min_le_max (points : List ForecastPoint)
    (mn mx : Date) (h1 : (summarizeDemand points).2.1 = some mn)
    (h2 : (summarizeDemand points).2.2 = some mx) : mn ≤ mx := by
  have hinv := foldl_summarizeStep_mminv points ([], none, none)
    (Or.inl ⟨rfl, rfl⟩)
  rcases hinv with ⟨ha, _⟩ | ⟨a, b, ha, hb, hab⟩
  · rw [summarizeDemand] at h1
    rw [ha] at h1
    cases h1
  · rw [summarizeDemand] at h1 h2
    rw [ha] at h1
    rw [hb] at h2
    injection h1 with h1
    injection h2 with h2
    subst h1
    subst h2
    exact hab

/-- The folded minimum bounds every processed point date from below, and
is either the initial minimum or one of the processed dates. -/
theorem foldl_summarizeStep_min_le (points : List ForecastPoint)
    (acc : List (String × ℚ) × Option Date × Option Date) (mn : Date)
    (h : ((points.foldl summarizeStep acc).2.1) = some mn) :
    (∀ p ∈ points, mn ≤ p.date) ∧
      (acc.2.1 = some mn ∨ mn ∈ points.map (fun p => p.date)) ∧
      (∀ d, acc.2.1 = some d → mn ≤ d) := by
  induction points generalizing acc with
  | nil =>
      rw [List.foldl_nil] at h
      refine ⟨by simp, Or.inl h, ?_⟩
      intro d hd
      rw [h] at hd
      injection hd with hd
      exact le_of_eq hd
  | cons p rest ih =>
      obtain ⟨hrest, hmem, hacc2⟩ := ih (summarizeStep acc p) h
      have hstep : ∃ e, (summarizeStep acc p).2.1 = some e ∧ e ≤ p.date ∧
          (e = p.date ∨ acc.2.1 = some e) ∧
          (∀ d, acc.2.1 = some d → e ≤ d) := by
        cases ha : acc.2.1 with
        | none =>
            refine ⟨p.date, by simp [summarizeStep, ha], le_refl _,
              Or.inl rfl, ?_⟩
            intro d hd
            simp [ha] at hd
        | some d =>
            by_cases hc : p.date < d
            · refine ⟨p.date, by simp [summarizeStep, ha, hc], le_refl _,
                Or.inl rfl, ?_⟩
              intro d2 hd2
              injection hd2 with hd2
              subst hd2
              linarith
            · refine ⟨d, by simp [summarizeStep, ha, hc], by linarith,
                Or.inr rfl, ?_⟩
              intro d2 hd2
              injection hd2 with hd2
              subst hd2
              linarith
      obtain ⟨e, he, heP, heOr, heAcc⟩ := hstep
      refine ⟨?_, ?_, ?_⟩
      · intro q hq
        rcases List.mem_cons.mp hq with rfl | hq
        · exact le_trans (hacc2 e he) heP
        · exact hrest q hq
      · rcases hmem with h2 | h2
        · rw [he] at h2
          injection h2 with h2
          subst h2
          rcases heOr with h3 | h3
          · exact Or.inr (by simp [h3])
          · exact Or.inl h3
        · exact Or.inr (by simp [h2])
      · intro d hd
        exact le_trans (hacc2 e he) (heAcc d hd)

/-- The summary's minimum date is the minimum of the artifact's dates. -/
theorem summarizeDemand_min_spec (points : List ForecastPoint) (mn : Date)
    (h : (summarizeDemand points).2.1 = some mn) :
    mn ∈ points.map (fun p => p.date) ∧ ∀ p ∈ points, mn ≤ p.date := by
  obtain ⟨hle, hmem, _⟩ := foldl_summarizeStep_min_le points ([], none, none) mn h
  rcases hmem with h2 | h2
  · cases h2
  · exact ⟨h2, hle⟩

/-- Closed form of `generateSupplyPlan` once the summary dates are
known. -/
theorem generateSupplyPlan_eq (points : List ForecastPoint)
    (constraints : InventoryConstraints) (loc : Option String) (mn mx : Date)
    (h1 : (summarizeDemand points).2.1 = some mn)
    (h2 : (summarizeDemand points).2.2 = some mx) :
    generateSupplyPlan points constraints loc =
      ((summarizeDemand points).1.filterMap (fun e =>
        if 0 < totalRequired ((mx - mn) + 1) constraints e.2 * (4 / 10) then
          some { sku := e.1, location := loc, order_date := mn,
                 quantity :=
                   totalRequired ((mx - mn) + 1) constraints e.2 * (4 / 10),
                 order_type := "purchase" }
        else none),
       (summarizeDemand points).1.filterMap (fun e =>
        if 0 < totalRequired ((mx - mn) + 1) constraints e.2 * (6 / 10) then
          some { sku := e.1, line_id := some "LINE-1", production_date := mn,
                 quantity :=
                   totalRequired ((mx - mn) + 1) constraints e.2 * (6 / 10) }
        else none),
       [{ name := "Total Volume",
          value := ((summarizeDemand points).1.map
            (fun e => totalRequired ((mx - mn) + 1) constraints e.2)).sum,
          unit := some "units" },
        { name := "Target Service Level",
          value := constraints.target_service_level, unit := some "" }]) := by
  simp only [generateSupplyPlan]
  rw [h1, h2]

/-- Filtering a `filterMap` for a key that appears in no entry yields
nothing. -/
theorem filterMap_filter_key_nil {α : Type} (demand : List (String × ℚ))
    (sku : String) (F : (String × ℚ) → Option α) (key : α → String)
    (hkey : ∀ e a, F e = some a → key a = e.1)
    (hns : sku ∉ demand.map Prod.fst) :
    (demand.filterMap F).filter (fun a => key a == sku) = [] := by
  rw [List.filter_eq_nil_iff]
  intro a ha
  obtain ⟨e, he, hFe⟩ := List.mem_filterMap.mp ha
  have : key a = e.1 := hkey e a hFe
  simp only [beq_iff_eq, this]
  intro hcontra
  exact hns (by simpa [hcontra] using List.mem_map_of_mem Prod.fst he)

/-- Filtering a `filterMap` over a key-unique demand list for one of its
SKUs yields exactly what the function emits for that SKU's entry. -/
theorem filterMap_filter_key {α : Type} (demand : List (String × ℚ))
    (hnd : (demand.map Prod.fst).Nodup) (sku : String) (td : ℚ)
    (hmem : (sku, td) ∈ demand) (F : (String × ℚ) → Option α)
    (key : α → String) (hkey : ∀ e a, F e = some a → key a = e.1) :
    (demand.filterMap F).filter (fun a => key a == sku) =
      (F (sku, td)).toList := by
  induction demand with
  | nil => cases hmem
  | cons e rest ih =>
      have hnd' := hnd
      rw [List.map_cons, List.nodup_cons] at hnd'
      obtain ⟨hnd1, hnd2⟩ := hnd'
      rcases List.mem_cons.mp hmem with rfl | hrest
      · cases hFe : F (sku, td) with
        | none =>
            rw [List.filterMap_cons_none hFe]
            rw [filterMap_filter_key_nil rest sku F key hkey hnd1]
            simp [hFe]
        | some a =>
            rw [List.filterMap_cons_some hFe]
            have hka : key a = sku := hkey _ _ hFe
            rw [List.filter_cons_of_pos (by simp [hka])]
            rw [filterMap_filter_key_nil rest sku F key hkey hnd1]
            simp [hFe]
      · have hsku_rest : sku ∈ rest.map Prod.fst := by
          simpa using List.mem_map_of_mem Prod.fst hrest
        have hne : e.1 ≠ sku := fun h => hnd1 (h ▸ hsku_rest)
        cases hFe : F e with
        | none =>
            rw [List.filterMap_cons_none hFe]
            exact ih hnd2 hrest
        | some a =>
            rw [List.filterMap_cons_some hFe]
            have hka : key a = e.1 := hkey _ _ hFe
            rw [List.filter_cons_of_neg (by simp [hka, hne])]
            exact ih hnd2 hrest

/-- Safety stock is non-negative whenever the demand and lead time are. -/
theorem computeSafetyStockForSku_nonneg (td : ℚ) (hd : Int)
    (c : InventoryConstraints) (htd : 0 ≤ td) (hl : 0 ≤ c.lead_time_days) :
    0 ≤ computeSafetyStockForSku td hd c := by
  unfold computeSafetyStockForSku
  split
  · exact le_refl 0
  · next hpos =>
      have hhd : (0 : ℚ) < (hd : ℚ) := by
        have : (0 : Int) < hd := by linarith
        exact_mod_cast this
      have h1 : 0 ≤ td / (hd : ℚ) := div_nonneg htd (le_of_lt hhd)
      have h2 : (0 : ℚ) ≤ (c.lead_time_days : ℚ) := by exact_mod_cast hl
      have h3 : (0 : ℚ) ≤
          (if (95 / 100 : ℚ) ≤ c.target_service_level then 165 / 100 else 1) := by
        split <;> norm_num
      exact mul_nonneg (mul_nonneg h1 h2) h3

/-- Total required quantity is non-negative whenever the demand and the
lead time are. -/
theorem totalRequired_nonneg (hd : Int) (c : InventoryConstraints) (td : ℚ)
    (htd : 0 ≤ td) (hl : 0 ≤ c.lead_time_days) :
    0 ≤ totalRequired hd c td :=
  add_nonneg htd (computeSafetyStockForSku_nonneg td hd c htd hl)

/-- The order and production quantities emitted for a demand list sum to
the sum of the per-SKU total required quantities, provided each total
required quantity is non-negative. -/
theorem sum_orders_production (demand : List (String × ℚ)) (hd : Int)
    (c : InventoryConstraints) (loc : Option String) (mn : Date)
    (hnn : ∀ e ∈ demand, 0 ≤ totalRequired hd c e.2) :
    (((demand.filterMap (fun e =>
        if 0 < totalRequired hd c e.2 * (4 / 10) then
          some { sku := e.1, location := loc, order_date := mn,
                 quantity := totalRequired hd c e.2 * (4 / 10),
                 order_type := "purchase" : RecommendedOrder }
        else none)).map (fun o => o.quantity)).sum +
      ((demand.filterMap (fun e =>
        if 0 < totalRequired hd c e.2 * (6 / 10) then
          some { sku := e.1, line_id := some "LINE-1", production_date := mn,
                 quantity := totalRequired hd c e.2 * (6 / 10) :
                   ProductionRecommendation }
        else none)).map (fun pr => pr.quantity)).sum) =
      (demand.map (fun e => totalRequired hd c e.2)).sum := by
  induction demand with
  | nil => simp
  | cons e rest ih =>
      have hnnrest : ∀ x ∈ rest, 0 ≤ totalRequired hd c x.2 :=
        fun x hx => hnn x (List.mem_cons_of_mem _ hx)
      have ihr := ih hnnrest
      have hte : 0 ≤ totalRequired hd c e.2 := hnn e (List.mem_cons_self _ _)
      by_cases h4 : 0 < totalRequired hd c e.2 * (4 / 10)
      · have h6 : 0 < totalRequired hd c e.2 * (6 / 10) := by linarith
        simp only [List.filterMap_cons, if_pos h4, if_pos h6, List.map_cons,
          List.sum_cons]
        linarith [ihr]
      · have hz : totalRequired hd c e.2 = 0 := by linarith
        have h6 : ¬0 < totalRequired hd c e.2 * (6 / 10) := by
          rw [hz]
          norm_num
        simp only [List.filterMap_cons, if_neg h4, if_neg h6, List.map_cons,
          List.sum_cons]
        linarith [ihr]

/-! ## Helper lemmas about the model selector -/

/-- Below the history/horizon guard the selector returns the stub with
empty metrics, whatever the forced model. -/
theorem selectModelAndForecast_short (O : StrategyOracles)
    (series : List (Date × ℚ)) (horizon_dates : List Date)
    (forced_model : Option String)
    (h : series.length < 4 ∨ horizon_dates.length = 0) :
    selectModelAndForecast O series horizon_dates forced_model =
      { forecast := generateStubForecast O.sinF O.pi
          (seriesBase (series.map Prod.snd)) horizon_dates.length,
        chosen := "stub", metrics := [] } := by
  simp only [selectModelAndForecast]
  rw [if_pos h]

/-- Past the guard with no forced model the selector runs the
auto-selection tail on the validation metrics. -/
theorem selectModelAndForecast_auto (O : StrategyOracles)
    (series : List (Date × ℚ)) (horizon_dates : List Date)
    (h4 : ¬series.length < 4) (hhd : ¬horizon_dates.length = 0) :
    selectModelAndForecast O series horizon_dates none =
      autoSelectAndForecast O series horizon_dates
        (validationMetrics O series) := by
  simp only [selectModelAndForecast]
  rw [if_neg (not_or.mpr ⟨h4, hhd⟩)]
  rfl

/-- Past the guard with a known forced model the selector runs the forced
strategy on the full series and falls back to the stub (keeping the
validation metrics) when it fails. -/
theorem selectModelAndForecast_forced (O : StrategyOracles)
    (series : List (Date × ℚ)) (horizon_dates : List Date) (name : String)
    (h4 : ¬series.length < 4) (hhd : ¬horizon_dates.length = 0)
    (hknown : knownModelName name = true) :
    selectModelAndForecast O series horizon_dates (some name) =
      (match forecastWithName O series horizon_dates name with
       | (some fc, chosen) =>
           { forecast := fc, chosen := chosen,
             metrics := validationMetrics O series }
       | (none, _) =>
           { forecast := generateStubForecast O.sinF O.pi
               (seriesBase (series.map Prod.snd)) horizon_dates.length,
             chosen := "stub",
             metrics := validationMetrics O series }) := by
  simp only [selectModelAndForecast]
  rw [if_neg (not_or.mpr ⟨h4, hhd⟩)]
  simp only [hknown, if_true]
  rfl

/-- Past the guard an unknown forced name falls through to the
auto-selection tail (Python: `forced_model in {...}` is false). -/
theorem selectModelAndForecast_unknown (O : StrategyOracles)
    (series : List (Date × ℚ)) (horizon_dates : List Date) (name : String)
    (h4 : ¬series.length < 4) (hhd : ¬horizon_dates.length = 0)
    (hk : knownModelName name = false) :
    selectModelAndForecast O series horizon_dates (some name) =
      autoSelectAndForecast O series horizon_dates
        (validationMetrics O series) := by
  simp only [selectModelAndForecast]
  rw [if_neg (not_or.mpr ⟨h4, hhd⟩)]
  simp only [hk]
  rfl

/-- The code's minimum-by-MAPE scan over the candidate table agrees with
the specification's lowest-MAPE-with-priority-tie-break selection, over
all strategies that produced a validation MAPE (infinite values
included). -/
theorem minFirst_eq_specSelectAll (am pm xm : Option (WithTop ℚ)) :
    minFirst (optEntry "arima" am ++ optEntry "prophet" pm ++
      optEntry "xgboost" xm) = specSelectAll am pm xm := by
  cases am with
  | none =>
      cases pm with
      | none =>
          cases xm with
          | none => rfl
          | some x => rfl
      | some p =>
          cases xm with
          | none => rfl
          | some x =>
              by_cases hxp : x < p
              · have h2 : ¬p ≤ x := not_le.mpr hxp
                simp [minFirst, optEntry, specSelectAll, leAllOpt, hxp, h2]
              · have h2 : p ≤ x := not_lt.mp hxp
                simp [minFirst, optEntry, specSelectAll, leAllOpt, hxp, h2]
  | some a =>
      cases pm with
      | none =>
          cases xm with
          | none =>
              simp [minFirst, optEntry, specSelectAll, leAllOpt]
          | some x =>
              by_cases hxa : x < a
              · have h2 : ¬a ≤ x := not_le.mpr hxa
                simp [minFirst, optEntry, specSelectAll, leAllOpt, hxa, h2]
              · have h2 : a ≤ x := not_lt.mp hxa
                simp [minFirst, optEntry, specSelectAll, leAllOpt, hxa, h2]
      | some p =>
          cases xm with
          | none =>
              by_cases hpa : p < a
              · have h2 : ¬a ≤ p := not_le.mpr hpa
                simp [minFirst, optEntry, specSelectAll, leAllOpt, hpa, h2]
              · have h2 : a ≤ p := not_lt.mp hpa
                simp [minFirst, optEntry, specSelectAll, leAllOpt, hpa, h2]
          | some x =>
              by_cases hpa : p < a
              · have h1 : ¬a ≤ p := not_le.mpr hpa
                by_cases hxp : x < p
                · have h2 : ¬p ≤ x := not_le.mpr hxp
                  simp [minFirst, optEntry, specSelectAll, leAllOpt, hpa,
                    hxp, h1, h2]
                · have h2 : p ≤ x := not_lt.mp hxp
                  simp [minFirst, optEntry, specSelectAll, leAllOpt, hpa,
                    hxp, h1, h2]
              · have hap : a ≤ p := not_lt.mp hpa
                by_cases hxa : x < a
                · have h2 : ¬a ≤ x := not_le.mpr hxa
                  have h3 : ¬p ≤ x := not_le.mpr (lt_of_lt_of_le hxa hap)
                  simp [minFirst, optEntry, specSelectAll, leAllOpt, hpa,
                    hxa, hap, h2, h3]
                · have h2 : a ≤ x := not_lt.mp hxa
                  simp [minFirst, optEntry, specSelectAll, leAllOpt, hpa,
                    hxa, hap, h2]

/-- The XGBoost rollout produces exactly one value per horizon step. -/
theorem xgbRollout_length (predict : ℚ → ℚ) (n : ℕ) (x : ℚ) :
    (xgbRollout predict n x).length = n := by
  induction n generalizing x with
  | zero => rfl
  | succ k ih => simp [xgbRollout, ih]

/-- Every XGBoost rollout value is non-negative (floored per step). -/
theorem xgbRollout_nonneg (predict : ℚ → ℚ) (n : ℕ) (x : ℚ) :
    ∀ v ∈ xgbRollout predict n x, 0 ≤ v := by
  induction n generalizing x with
  | zero => simp [xgbRollout]
  | succ k ih =>
      intro v hv
      simp only [xgbRollout, List.mem_cons] at hv
      rcases hv with rfl | hv
      · exact le_max_right _ 0
      · exact ih _ v hv

/-- A successful strategy run for the full horizon has one value per
horizon date, given the library length contracts. -/
theorem forecastWithName_some_length (O : StrategyOracles)
    (series : List (Date × ℚ)) (horizon_dates : List Date)
    (hA : ∀ v h l, O.rawArima v h = some l → l.length = h)
    (hP : ∀ s ds l, O.rawProphet s ds = some l → l.length = ds.length)
    (name : String) (fc : List ℚ) (chosen : String)
    (h : forecastWithName O series horizon_dates name = (some fc, chosen)) :
    fc.length = horizon_dates.length := by
  unfold forecastWithName at h
  split_ifs at h
  · injection h with h1 _
    unfold forecastArima at h1
    split_ifs at h1
    obtain ⟨l, hl, rfl⟩ := Option.map_eq_some'.mp h1
    rw [List.length_map]
    exact hA _ _ _ hl
  · injection h with h1 _
    unfold forecastProphet at h1
    split_ifs at h1
    obtain ⟨l, hl, rfl⟩ := Option.map_eq_some'.mp h1
    rw [List.length_map]
    exact hP _ _ _ hl
  · injection h with h1 _
    unfold forecastXgb at h1
    split_ifs at h1
    dsimp only at h1
    split at h1
    · cases h1
    · injection h1 with h1
      rw [← h1]
      exact xgbRollout_length _ _ _
  · injection h with h1 _
    injection h1 with h1
    rw [← h1]
    exact generateStubForecast_length _ _ _ _
  · injection h with h1 _
    cases h1

/-- A successful strategy run yields only non-negative values. -/
theorem forecastWithName_some_nonneg (O : StrategyOracles)
    (series : List (Date × ℚ)) (horizon_dates : List Date) (name : String)
    (fc : List ℚ) (chosen : String)
    (h : forecastWithName O series horizon_dates name = (some fc, chosen)) :
    ∀ x ∈ fc, 0 ≤ x := by
  unfold forecastWithName at h
  split_ifs at h
  · injection h with h1 _
    unfold forecastArima at h1
    split_ifs at h1
    obtain ⟨l, _, rfl⟩ := Option.map_eq_some'.mp h1
    intro x hx
    obtain ⟨y, _, rfl⟩ := List.mem_map.mp hx
    exact le_max_right y 0
  · injection h with h1 _
    unfold forecastProphet at h1
    split_ifs at h1
    obtain ⟨l, _, rfl⟩ := Option.map_eq_some'.mp h1
    intro x hx
    obtain ⟨y, _, rfl⟩ := List.mem_map.mp hx
    exact le_max_right y 0
  · injection h with h1 _
    unfold forecastXgb at h1
    split_ifs at h1
    dsimp only at h1
    split at h1
    · cases h1
    · injection h1 with h1
      rw [← h1]
      exact xgbRollout_nonneg _ _ _
  · injection h with h1 _
    injection h1 with h1
    rw [← h1]
    exact generateStubForecast_nonneg _ _ _ _
  · injection h with h1 _
    cases h1

/-- The auto-selection tail returns one value per horizon date. -/
theorem autoSelectAndForecast_forecast_length (O : StrategyOracles)
    (series : List (Date × ℚ)) (horizon_dates : List Date)
    (metrics : List (String × WithTop ℚ))
    (hA : ∀ v h l, O.rawArima v h = some l → l.length = h)
    (hP : ∀ s ds l, O.rawProphet s ds = some l → l.length = ds.length) :
    (autoSelectAndForecast O series horizon_dates metrics).forecast.length =
      horizon_dates.length := by
  unfold autoSelectAndForecast
  split
  · exact generateStubForecast_length _ _ _ _
  · split
    · exact generateStubForecast_length _ _ _ _
    · split
      · next fc chosen heq =>
          exact forecastWithName_some_length O series horizon_dates hA hP
            _ fc chosen heq
      · exact generateStubForecast_length _ _ _ _

/-- The auto-selection tail yields only non-negative values. -/
theorem autoSelectAndForecast_forecast_nonneg (O : StrategyOracles)
    (series : List (Date × ℚ)) (horizon_dates : List Date)
    (metrics : List (String × WithTop ℚ)) :
    ∀ x ∈ (autoSelectAndForecast O series horizon_dates metrics).forecast,
      0 ≤ x := by
  unfold autoSelectAndForecast
  split
  · exact generateStubForecast_nonneg _ _ _ _
  · split
    · exact generateStubForecast_nonneg _ _ _ _
    · split
      · next fc chosen heq =>
          exact forecastWithName_some_nonneg O series horizon_dates
            _ fc chosen heq
      · exact generateStubForecast_nonneg _ _ _ _

/-- The selector returns one value per horizon date, given the library
length contracts. -/
theorem selectModelAndForecast_forecast_length (O : StrategyOracles)
    (series : List (Date × ℚ)) (horizon_dates : List Date)
    (forced_model : Option String)
    (hA : ∀ v h l, O.rawArima v h = some l → l.length = h)
    (hP : ∀ s ds l, O.rawProphet s ds = some l → l.length = ds.length) :
    (selectModelAndForecast O series horizon_dates
      forced_model).forecast.length = horizon_dates.length := by
  by_cases hg : series.length < 4 ∨ horizon_dates.length = 0
  · rw [selectModelAndForecast_short O series horizon_dates forced_model hg]
    exact generateStubForecast_length _ _ _ _
  · have h4 : ¬series.length < 4 := fun h => hg (Or.inl h)
    have hhd : ¬horizon_dates.length = 0 := fun h => hg (Or.inr h)
    cases forced_model with
    | none =>
        rw [selectModelAndForecast_auto O series horizon_dates h4 hhd]
        exact autoSelectAndForecast_forecast_length O series horizon_dates _
          hA hP
    | some name =>
        cases hk : knownModelName name with
        | true =>
            rw [selectModelAndForecast_forced O series horizon_dates name
              h4 hhd hk]
            split
            · next fc chosen heq =>
                exact forecastWithName_some_length O series horizon_dates
                  hA hP _ fc chosen heq
            · exact generateStubForecast_length _ _ _ _
        | false =>
            rw [selectModelAndForecast_unknown O series horizon_dates name
              h4 hhd hk]
            exact autoSelectAndForecast_forecast_length O series
              horizon_dates _ hA hP

/-- The selector yields only non-negative values. -/
theorem selectModelAndForecast_forecast_nonneg (O : StrategyOracles)
    (series : List (Date × ℚ)) (horizon_dates : List Date)
    (forced_model : Option String) :
    ∀ x ∈ (selectModelAndForecast O series horizon_dates
      forced_model).forecast, 0 ≤ x := by
  by_cases hg : series.length < 4 ∨ horizon_dates.length = 0
  · rw [selectModelAndForecast_short O series horizon_dates forced_model hg]
    exact generateStubForecast_nonneg _ _ _ _
  · have h4 : ¬series.length < 4 := fun h => hg (Or.inl h)
    have hhd : ¬horizon_dates.length = 0 := fun h => hg (Or.inr h)
    cases forced_model with
    | none =>
        rw [selectModelAndForecast_auto O series horizon_dates h4 hhd]
        exact autoSelectAndForecast_forecast_nonneg O series horizon_dates _
    | some name =>
        cases hk : knownModelName name with
        | true =>
            rw [selectModelAndForecast_forced O series horizon_dates name
              h4 hhd hk]
            split
            · next fc chosen heq =>
                exact forecastWithName_some_nonneg O series horizon_dates
                  _ fc chosen heq
            · exact generateStubForecast_nonneg _ _ _ _
        | false =>
            rw [selectModelAndForecast_unknown O series horizon_dates name
              h4 hhd hk]
            exact autoSelectAndForecast_forecast_nonneg O series
              horizon_dates _

/-- The per-SKU orchestrator body returns one mean per horizon date. -/
theorem skuForecast_length (O : StrategyOracles)
    (hist : String → List (Date × ℚ)) (dateIndex : List Date)
    (forced_model : Option String) (sku : String)
    (hA : ∀ v h l, O.rawArima v h = some l → l.length = h)
    (hP : ∀ s ds l, O.rawProphet s ds = some l → l.length = ds.length) :
    (skuForecast O hist dateIndex forced_model sku).1.length =
      dateIndex.length := by
  simp only [skuForecast]
  by_cases hh : hist sku = []
  · rw [if_pos hh]
    exact generateStubForecast_length _ _ _ _
  · rw [if_neg hh]
    exact selectModelAndForecast_forecast_length O _ dateIndex forced_model
      hA hP

/-- The per-SKU orchestrator body yields only non-negative means. -/
theorem skuForecast_nonneg (O : StrategyOracles)
    (hist : String → List (Date × ℚ)) (dateIndex : List Date)
    (forced_model : Option String) (sku : String) :
    ∀ x ∈ (skuForecast O hist dateIndex forced_model sku).1, 0 ≤ x := by
  simp only [skuForecast]
  by_cases hh : hist sku = []
  · rw [if_pos hh]
    exact generateStubForecast_nonneg _ _ _ _
  · rw [if_neg hh]
    exact selectModelAndForecast_forecast_nonneg O _ dateIndex forced_model

/-- The orchestrator's point list is one block of points per SKU in
request order. -/
theorem generateEnsembleForecast_points (O : StrategyOracles)
    (hist : String → List (Date × ℚ)) (sku_list : List String)
    (dateIndex : List Date) (forced_model : Option String) :
    (generateEnsembleForecast O hist sku_list dateIndex forced_model).1 =
      sku_list.flatMap (fun s =>
        (dateIndex.zip (skuForecast O hist dateIndex forced_model s).1).map
          (mkForecastPoint s)) := by
  simp only [generateEnsembleForecast]
  rw [List.flatMap_map]

/-- Count of one SKU's block for its own (sku, date) pair. -/
theorem countP_block_own (sku : String) (d : Date) (dateIndex : List Date)
    (means : List ℚ) (hlen : means.length = dateIndex.length)
    (hnd : dateIndex.Nodup) (hd : d ∈ dateIndex) :
    ((dateIndex.zip means).map (mkForecastPoint sku)).countP
      (fun p => p.sku == sku && p.date == d) = 1 := by
  rw [List.countP_map]
  have h1 : ((fun p => p.sku == sku && p.date == d) ∘ mkForecastPoint sku) =
      fun dm => dm.1 == d := by
    funext dm
    simp [mkForecastPoint]
  rw [h1]
  have h2 : (dateIndex.zip means).countP (fun dm => dm.1 == d) =
      ((dateIndex.zip means).map Prod.fst).countP (fun x => x == d) := by
    rw [List.countP_map]
    rfl
  rw [h2, List.map_fst_zip dateIndex means (le_of_eq hlen.symm)]
  rw [← List.count_eq_countP]
  exact List.count_eq_one_of_mem hnd hd

/-- Count of another SKU's block is zero. -/
theorem countP_block_other (sku s : String) (hne : s ≠ sku) (d : Date)
    (dateIndex : List Date) (means : List ℚ) :
    ((dateIndex.zip means).map (mkForecastPoint s)).countP
      (fun p => p.sku == sku && p.date == d) = 0 := by
  rw [List.countP_eq_zero]
  intro p hp
  obtain ⟨dm, _, rfl⟩ := List.mem_map.mp hp
  simp [mkForecastPoint, hne]

/-- Exactly one point per (sku, date) pair across the per-SKU blocks, for
a duplicate-free SKU list. -/
theorem countP_flatMap_points (O : StrategyOracles)
    (hist : String → List (Date × ℚ)) (dateIndex : List Date)
    (forced_model : Option String)
    (hA : ∀ v h l, O.rawArima v h = some l → l.length = h)
    (hP : ∀ s ds l, O.rawProphet s ds = some l → l.length = ds.length)
    (hndD : dateIndex.Nodup) (sku : String) (d : Date) (hd : d ∈ dateIndex) :
    ∀ skus : List String, skus.Nodup → sku ∈ skus →
    ((skus.flatMap (fun s =>
        (dateIndex.zip (skuForecast O hist dateIndex forced_model s).1).map
          (mkForecastPoint s))).countP
      (fun p => p.sku == sku && p.date == d)) = 1 := by
  intro skus
  induction skus with
  | nil =>
      intro _ h
      cases h
  | cons s rest ih =>
      intro hnd hmem
      rw [List.flatMap_cons, List.countP_append]
      obtain ⟨hs_notin, hnd_rest⟩ := List.nodup_cons.mp hnd
      rcases List.mem_cons.mp hmem with rfl | hmem2
      · rw [countP_block_own sku d dateIndex _
          (skuForecast_length O hist dateIndex forced_model sku hA hP)
          hndD hd]
        have h0 : ((rest.flatMap (fun s =>
            (dateIndex.zip
              (skuForecast O hist dateIndex forced_model s).1).map
              (mkForecastPoint s))).countP
            (fun p => p.sku == sku && p.date == d)) = 0 := by
          rw [List.countP_eq_zero]
          intro p hp
          obtain ⟨s2, hs2, hpmem⟩ := List.mem_flatMap.mp hp
          obtain ⟨dm, _, rfl⟩ := List.mem_map.mp hpmem
          have hne : s2 ≠ sku := fun h => hs_notin (h ▸ hs2)
          simp [mkForecastPoint, hne]
        rw [h0]
      · have hne : s ≠ sku := fun h => hs_notin (h ▸ hmem2)
        rw [countP_block_other sku s hne d dateIndex _, ih hnd_rest hmem2]

/-- The daily date index never repeats a date, so the duplicate-free
hypothesis of the orchestrator theorem holds for it. -/
theorem dateRangeDaily_nodup (start_date end_date : Date) :
    (dateRangeDaily start_date end_date).Nodup := by
  unfold dateRangeDaily
  refine List.Nodup.map ?_ (List.nodup_range _)
  intro a b hab
  dsimp only at hab
  have h2 : (a : Int) = (b : Int) := by linarith
  exact_mod_cast h2

/-- The daily date index contains exactly the dates of the requested
inclusive range. -/
theorem mem_dateRangeDaily (start_date end_date d : Date) :
    d ∈ dateRangeDaily start_date end_date ↔
      start_date ≤ d ∧ d ≤ end_date := by
  unfold dateRangeDaily
  constructor
  · intro hd
    obtain ⟨i, hi, rfl⟩ := List.mem_map.mp hd
    rw [List.mem_range] at hi
    have h3 : (i : Int) < end_date + 1 - start_date := Int.lt_toNat.mp hi
    have h0 : (0 : Int) ≤ (i : Int) := Int.natCast_nonneg i
    constructor
    · linarith
    · linarith
  · intro hrange
    obtain ⟨h1, h2⟩ := hrange
    refine List.mem_map.mpr ⟨(d - start_date).toNat, ?_, ?_⟩
    · rw [List.mem_range]
      rw [Int.toNat_lt_toNat (by linarith)]
      linarith
    · rw [Int.toNat_of_nonneg (by linarith : (0 : Int) ≤ d - start_date)]
      ring

/-! ## Claim theorems -/

/-- C6: the Stub forecast is a deterministic pure function of
(base, horizon): for horizon n and step i in 0..n-1 it returns exactly
max(0, base·(1 + 0.12·sin(phase) + trend_i) + 0.05·base·sin(1.7·phase))
with phase = i/n·2.5·pi and trend_i linearly interpolated from -0.08 to
+0.08 across the horizon; for horizon 0 (the Python guard `horizon <= 0`)
it returns an empty vector; every output value is non-negative; and two
calls with identical (base, horizon) yield identical output.  `s` and `pi`
stand for numpy's sin and pi, over which the statement is universally
quantified. -/
theorem claim_C6_stub_forecast_formula (s : ℚ → ℚ) (pi base : ℚ) (n : ℕ) :
    generateStubForecast s pi base n =
      (List.range n).map (fun (i : ℕ) =>
        max 0 (base * (1 + 12 / 100 * s ((i : ℚ) / (n : ℚ) * (5 / 2 * pi)) +
            (-(8 / 100) + 16 / 100 * (i : ℚ) / ((n : ℚ) - 1))) +
          5 / 100 * base * s (17 / 10 * ((i : ℚ) / (n : ℚ) * (5 / 2 * pi))))) ∧
    generateStubForecast s pi base 0 = [] ∧
    (∀ x ∈ generateStubForecast s pi base n, 0 ≤ x) ∧
    (∀ (base2 : ℚ) (n2 : ℕ), base = base2 → n = n2 →
      generateStubForecast s pi base n = generateStubForecast s pi base2 n2) := by
  refine ⟨generateStubForecast_closed_form s pi base n,
    by simp [generateStubForecast],
    generateStubForecast_nonneg s pi base n, ?_⟩
  rintro base2 n2 rfl rfl
  rfl

/-- C4: only demand-type shocks affect the scenario computation: the
engine emits exactly one "Total Volume" KPI with
scenario = base · f and delta = scenario - base, where f is the unweighted
mean of the demand-shock factors (1 when there are none); in particular a
request whose shocks contain no demand-type entry leaves the volume
unchanged and the delta 0, regardless of supply/capacity/price shocks. -/
theorem claim_C4_demand_shocks_only (plan : PlanResponse)
    (request : ScenarioRequest) :
    computeScenarioKpis plan request =
      [{ name := "Total Volume", base := baseVolume plan,
         scenario := baseVolume plan * averageDemandFactor request,
         delta := baseVolume plan * averageDemandFactor request -
           baseVolume plan,
         unit := some "units" }] ∧
    ((∀ shock ∈ request.shocks, shock.type ≠ ScenarioShockType.demand) →
      averageDemandFactor request = 1 ∧
      baseVolume plan * averageDemandFactor request = baseVolume plan ∧
      baseVolume plan * averageDemandFactor request - baseVolume plan = 0) := by
  refine ⟨rfl, fun h => ?_⟩
  have hdf : demandFactors request = [] := by
    unfold demandFactors
    rw [List.map_eq_nil_iff, List.filter_eq_nil_iff]
    intro shock hs
    simpa using h shock hs
  have hf : averageDemandFactor request = 1 := by
    simp [averageDemandFactor, hdf]
  exact ⟨hf, by rw [hf, mul_one], by rw [hf, mul_one, sub_self]⟩

/-- C2 (amended): for every request with a non-empty, duplicate-free SKU
list and a duplicate-free date index (pd.date_range always yields
strictly increasing dates) the Orchestrator emits exactly one
ForecastPoint per (sku, date) pair of the request, and every point
satisfies mean ≥ 0, q50 = mean, q10 = 0.8·mean, q90 = 1.2·mean, hence
q10 ≤ q50 ≤ q90.  `hA`/`hP` are the library length contracts: a
successful external fit returns one value per requested step. -/
theorem claim_C2_orchestrator_points (O : StrategyOracles)
    (hist : String → List (Date × ℚ)) (sku_list : List String)
    (dateIndex : List Date) (forced_model : Option String)
    (hA : ∀ v h l, O.rawArima v h = some l → l.length = h)
    (hP : ∀ s ds l, O.rawProphet s ds = some l → l.length = ds.length)
    (hne : sku_list ≠ []) (hndS : sku_list.Nodup)
    (hndD : dateIndex.Nodup) :
    (∀ sku ∈ sku_list, ∀ d ∈ dateIndex,
      ((generateEnsembleForecast O hist sku_list dateIndex
          forced_model).1.countP
        (fun p => p.sku == sku && p.date == d)) = 1) ∧
    (∀ p ∈ (generateEnsembleForecast O hist sku_list dateIndex
        forced_model).1,
      p.sku ∈ sku_list ∧ p.date ∈ dateIndex ∧ 0 ≤ p.mean ∧
      p.q50 = p.mean ∧ p.q10 = p.mean * (8 / 10) ∧
      p.q90 = p.mean * (12 / 10) ∧ p.q10 ≤ p.q50 ∧ p.q50 ≤ p.q90) := by
  rw [generateEnsembleForecast_points]
  constructor
  · intro sku hsku d hd
    exact countP_flatMap_points O hist dateIndex forced_model hA hP hndD
      sku d hd sku_list hndS hsku
  · intro p hp
    obtain ⟨s, hs, hpmem⟩ := List.mem_flatMap.mp hp
    obtain ⟨dm, hdm, rfl⟩ := List.mem_map.mp hpmem
    obtain ⟨hd1, hd2⟩ := List.of_mem_zip hdm
    have hmean : 0 ≤ dm.2 :=
      skuForecast_nonneg O hist dateIndex forced_model s dm.2 hd2
    refine ⟨hs, hd1, hmean, rfl, rfl, rfl, ?_, ?_⟩
    · show dm.2 * (8 / 10) ≤ dm.2
      linarith
    · show dm.2 ≤ dm.2 * (12 / 10)
      linarith

/-- C2 witness: a single-SKU, single-day request with empty history and
failing oracles. -/
theorem claim_C2_witness :
    ((generateEnsembleForecast exOraclesNone exHistEmpty ["A"] [0]
        none).1.countP
      (fun p => p.sku == "A" && p.date == 0)) = 1 := by
  have h := claim_C2_orchestrator_points exOraclesNone exHistEmpty ["A"] [0]
    none
    (fun v h l hl => absurd hl (by simp [exOraclesNone]))
    (fun s ds l hl => absurd hl (by simp [exOraclesNone]))
    (by decide) (by decide) (by decide)
  exact h.1 "A" (by decide) 0 (by decide)

/-- C2 counterexample: the claim quantifies over every request with a
non-empty SKU list, but a request whose SKU list repeats a SKU produces
two points for the repeated (sku, date) pair, not exactly one. -/
theorem claim_C2_counterexample :
    ((generateEnsembleForecast exOraclesNone exHistEmpty ["A", "A"] [0]
        none).1.countP
      (fun p => p.sku == "A" && p.date == 0)) = 2 := by
  decide

/-- C3: for every SKU of a non-empty forecast artifact the planner
computes average_daily_demand = total_demand / horizon_days with
horizon_days = (max_date - min_date) + 1, safety_stock =
average_daily_demand · lead_time_days · z with z = 1.65 when
target_service_level ≥ 0.95 and z = 1 otherwise, total_required =
total_demand + safety_stock, purchase_quantity = 0.4 · total_required and
production_quantity = 0.6 · total_required; consequently, when
total_required > 0, purchase + production = total_required and
purchase / production = 2/3. -/
theorem claim_C3_supply_plan_formulas (points : List ForecastPoint)
    (constraints : InventoryConstraints) (loc : Option String) (sku : String)
    (td : ℚ) (mn mx : Date)
    (hmn : (summarizeDemand points).2.1 = some mn)
    (hmx : (summarizeDemand points).2.2 = some mx)
    (hmem : (sku, td) ∈ (summarizeDemand points).1) :
    computeSafetyStockForSku td ((mx - mn) + 1) constraints =
      td / (((mx - mn) + 1 : Int) : ℚ) * (constraints.lead_time_days : ℚ) *
        (if (95 / 100 : ℚ) ≤ constraints.target_service_level then 165 / 100
         else 1) ∧
    (0 < totalRequired ((mx - mn) + 1) constraints td →
      ((generateSupplyPlan points constraints loc).1.filter
          (fun o => o.sku == sku)).map (fun o => o.quantity) =
        [totalRequired ((mx - mn) + 1) constraints td * (4 / 10)] ∧
      ((generateSupplyPlan points constraints loc).2.1.filter
          (fun pr => pr.sku == sku)).map (fun pr => pr.quantity) =
        [totalRequired ((mx - mn) + 1) constraints td * (6 / 10)] ∧
      totalRequired ((mx - mn) + 1) constraints td * (4 / 10) +
          totalRequired ((mx - mn) + 1) constraints td * (6 / 10) =
        totalRequired ((mx - mn) + 1) constraints td ∧
      totalRequired ((mx - mn) + 1) constraints td * (4 / 10) /
          (totalRequired ((mx - mn) + 1) constraints td * (6 / 10)) =
        2 / 3) := by
  have hle : mn ≤ mx := summarizeDemand_min_le_max points mn mx hmn hmx
  constructor
  · unfold computeSafetyStockForSku
    rw [if_neg (by linarith : ¬(mx - mn) + 1 ≤ 0)]
  · intro htr
    have h4 : 0 < totalRequired ((mx - mn) + 1) constraints td * (4 / 10) :=
      mul_pos htr (by norm_num)
    have h6 : 0 < totalRequired ((mx - mn) + 1) constraints td * (6 / 10) :=
      mul_pos htr (by norm_num)
    rw [generateSupplyPlan_eq points constraints loc mn mx hmn hmx]
    dsimp only
    refine ⟨?_, ?_, by ring, ?_⟩
    · have hkey : ∀ (e : String × ℚ) (a : RecommendedOrder),
          (if 0 < totalRequired ((mx - mn) + 1) constraints e.2 * (4 / 10) then
            some { sku := e.1, location := loc, order_date := mn,
                   quantity :=
                     totalRequired ((mx - mn) + 1) constraints e.2 * (4 / 10),
                   order_type := "purchase" : RecommendedOrder }
          else none) = some a → a.sku = e.1 := by
        intro e a h
        split at h
        · injection h with h
          rw [← h]
        · exact absurd h (by simp)
      have hres := filterMap_filter_key (summarizeDemand points).1
        (summarizeDemand_keys_nodup points) sku td hmem _
        (fun o : RecommendedOrder => o.sku) hkey
      rw [hres, if_pos h4]
      rfl
    · have hkey : ∀ (e : String × ℚ) (a : ProductionRecommendation),
          (if 0 < totalRequired ((mx - mn) + 1) constraints e.2 * (6 / 10) then
            some { sku := e.1, line_id := some "LINE-1",
                   production_date := mn,
                   quantity :=
                     totalRequired ((mx - mn) + 1) constraints e.2 * (6 / 10) :
                     ProductionRecommendation }
          else none) = some a → a.sku = e.1 := by
        intro e a h
        split at h
        · injection h with h
          rw [← h]
        · exact absurd h (by simp)
      have hres := filterMap_filter_key (summarizeDemand points).1
        (summarizeDemand_keys_nodup points) sku td hmem _
        (fun pr : ProductionRecommendation => pr.sku) hkey
      rw [hres, if_pos h6]
      rfl
    · rw [div_eq_iff (ne_of_gt h6)]
      ring

/-- C3 witness at the one-point artifact `exPoints`. -/
theorem claim_C3_witness :
    ((generateSupplyPlan exPoints exConstraints none).1.filter
        (fun o => o.sku == "A")).map (fun o => o.quantity) =
      [totalRequired ((0 - 0) + 1) exConstraints 10 * (4 / 10)] ∧
    totalRequired ((0 - 0) + 1) exConstraints 10 * (4 / 10) +
        totalRequired ((0 - 0) + 1) exConstraints 10 * (6 / 10) =
      totalRequired ((0 - 0) + 1) exConstraints 10 := by
  have h := claim_C3_supply_plan_formulas exPoints exConstraints none "A" 10
    0 0 (by decide) (by decide) (by decide)
  have htr : 0 < totalRequired ((0 - 0) + 1) exConstraints 10 := by
    norm_num [totalRequired, computeSafetyStockForSku, exConstraints]
  exact ⟨(h.2 htr).1, (h.2 htr).2.2.1⟩

/-- C7: a zero-point artifact yields empty orders, production and KPIs
without error; a non-empty artifact always yields exactly the two summary
KPIs — Total Volume (sum of total_required over all SKUs) and Target
Service Level — and every emitted order or production recommendation has
strictly positive quantity. -/
theorem claim_C7_empty_artifact_and_kpis (points : List ForecastPoint)
    (constraints : InventoryConstraints) (loc : Option String) :
    (points = [] → generateSupplyPlan points constraints loc = ([], [], [])) ∧
    (points ≠ [] →
      ∃ mn mx, (summarizeDemand points).2.1 = some mn ∧
        (summarizeDemand points).2.2 = some mx ∧
        (generateSupplyPlan points constraints loc).2.2 =
          [{ name := "Total Volume",
             value := ((summarizeDemand points).1.map
               (fun e => totalRequired ((mx - mn) + 1) constraints e.2)).sum,
             unit := some "units" },
           { name := "Target Service Level",
             value := constraints.target_service_level, unit := some "" }]) ∧
    (∀ o ∈ (generateSupplyPlan points constraints loc).1, 0 < o.quantity) ∧
    (∀ pr ∈ (generateSupplyPlan points constraints loc).2.1,
      0 < pr.quantity) := by
  refine ⟨?_, ?_, ?_, ?_⟩
  · rintro rfl
    rfl
  · intro hne
    obtain ⟨hmin, hmax⟩ := summarizeDemand_isSome_of_ne_nil points hne
    obtain ⟨mn, hmn⟩ := Option.isSome_iff_exists.mp hmin
    obtain ⟨mx, hmx⟩ := Option.isSome_iff_exists.mp hmax
    refine ⟨mn, mx, hmn, hmx, ?_⟩
    rw [generateSupplyPlan_eq points constraints loc mn mx hmn hmx]
  · intro o ho
    by_cases hne : points = []
    · subst hne
      cases ho
    · obtain ⟨hmin, hmax⟩ := summarizeDemand_isSome_of_ne_nil points hne
      obtain ⟨mn, hmn⟩ := Option.isSome_iff_exists.mp hmin
      obtain ⟨mx, hmx⟩ := Option.isSome_iff_exists.mp hmax
      rw [generateSupplyPlan_eq points constraints loc mn mx hmn hmx] at ho
      obtain ⟨e, _, hFe⟩ := List.mem_filterMap.mp ho
      split at hFe
      · next hpos =>
          injection hFe with hFe
          rw [← hFe]
          exact hpos
      · exact absurd hFe (by simp)
  · intro pr hpr
    by_cases hne : points = []
    · subst hne
      cases hpr
    · obtain ⟨hmin, hmax⟩ := summarizeDemand_isSome_of_ne_nil points hne
      obtain ⟨mn, hmn⟩ := Option.isSome_iff_exists.mp hmin
      obtain ⟨mx, hmx⟩ := Option.isSome_iff_exists.mp hmax
      rw [generateSupplyPlan_eq points constraints loc mn mx hmn hmx] at hpr
      obtain ⟨e, _, hFe⟩ := List.mem_filterMap.mp hpr
      split at hFe
      · next hpos =>
          injection hFe with hFe
          rw [← hFe]
          exact hpos
      · exact absurd hFe (by simp)

/-- C9: every emitted order date and production date equals the minimum
date across the artifact's points (the summary's minimum), for every
constraints record — lead_time_days can only influence quantities, never
the recommendation dates. -/
theorem claim_C9_recommendation_dates (points : List ForecastPoint)
    (constraints : InventoryConstraints) (loc : Option String) (mn : Date)
    (hmn : (summarizeDemand points).2.1 = some mn) :
    (mn ∈ points.map (fun p => p.date) ∧ ∀ p ∈ points, mn ≤ p.date) ∧
    (∀ o ∈ (generateSupplyPlan points constraints loc).1,
      o.order_date = mn) ∧
    (∀ pr ∈ (generateSupplyPlan points constraints loc).2.1,
      pr.production_date = mn) := by
  have hspec := summarizeDemand_min_spec points mn hmn
  have hne : points ≠ [] := by
    intro hnil
    subst hnil
    cases hmn
  obtain ⟨_, hmax⟩ := summarizeDemand_isSome_of_ne_nil points hne
  obtain ⟨mx, hmx⟩ := Option.isSome_iff_exists.mp hmax
  refine ⟨hspec, ?_, ?_⟩
  · intro o ho
    rw [generateSupplyPlan_eq points constraints loc mn mx hmn hmx] at ho
    obtain ⟨e, _, hFe⟩ := List.mem_filterMap.mp ho
    split at hFe
    · injection hFe with hFe
      rw [← hFe]
    · exact absurd hFe (by simp)
  · intro pr hpr
    rw [generateSupplyPlan_eq points constraints loc mn mx hmn hmx] at hpr
    obtain ⟨e, _, hFe⟩ := List.mem_filterMap.mp hpr
    split at hFe
    · injection hFe with hFe
      rw [← hFe]
    · exact absurd hFe (by simp)

/-- C9 witness at the one-point artifact `exPoints`. -/
theorem claim_C9_witness :
    (0 : Date) ∈ exPoints.map (fun p => p.date) ∧
    ∀ o ∈ (generateSupplyPlan exPoints exConstraints none).1,
      o.order_date = 0 := by
  have h := claim_C9_recommendation_dates exPoints exConstraints none 0
    (by decide)
  exact ⟨h.1.1, h.2.1⟩

/-- C10: for non-negative point means and a non-negative lead time, the
plan's Total Volume KPI equals the sum of all order quantities plus all
production quantities, and the Scenario Engine's base volume for the
resulting plan equals that same value. -/
theorem claim_C10_total_volume_consistency (points : List ForecastPoint)
    (constraints : InventoryConstraints) (loc : Option String)
    (hm : ∀ p ∈ points, 0 ≤ p.mean)
    (hl : 0 ≤ constraints.lead_time_days) :
    (∀ kpi ∈ (generateSupplyPlan points constraints loc).2.2,
      kpi.name = "Total Volume" →
      kpi.value =
        ((generateSupplyPlan points constraints loc).1.map
          (fun o => o.quantity)).sum +
        ((generateSupplyPlan points constraints loc).2.1.map
          (fun pr => pr.quantity)).sum) ∧
    (∀ (plan_id forecast_id : String) (request : ScenarioRequest),
      (computeScenarioKpis
        { plan_id := plan_id, forecast_id := forecast_id,
          orders := (generateSupplyPlan points constraints loc).1,
          production := (generateSupplyPlan points constraints loc).2.1,
          kpis := (generateSupplyPlan points constraints loc).2.2 }
        request).map (fun k => k.base) =
      [((generateSupplyPlan points constraints loc).1.map
          (fun o => o.quantity)).sum +
        ((generateSupplyPlan points constraints loc).2.1.map
          (fun pr => pr.quantity)).sum]) := by
  constructor
  · intro kpi hkpi hname
    by_cases hne : points = []
    · subst hne
      cases hkpi
    · obtain ⟨hmin, hmax⟩ := summarizeDemand_isSome_of_ne_nil points hne
      obtain ⟨mn, hmn⟩ := Option.isSome_iff_exists.mp hmin
      obtain ⟨mx, hmx⟩ := Option.isSome_iff_exists.mp hmax
      rw [generateSupplyPlan_eq points constraints loc mn mx hmn hmx] at hkpi ⊢
      have hnn : ∀ e ∈ (summarizeDemand points).1,
          0 ≤ totalRequired ((mx - mn) + 1) constraints e.2 :=
        fun e he => totalRequired_nonneg _ constraints e.2
          (summarizeDemand_values_nonneg points hm e he) hl
      rcases List.mem_cons.mp hkpi with rfl | hkpi2
      · exact (sum_orders_production (summarizeDemand points).1
          ((mx - mn) + 1) constraints loc mn hnn).symm
      · rcases List.mem_singleton.mp hkpi2 with rfl
        exact absurd hname (by simp)
  · intro plan_id forecast_id request
    rfl

/-- C10 witness at the one-point artifact `exPoints`. -/
theorem claim_C10_witness :
    (computeScenarioKpis
      { plan_id := "p", forecast_id := "f",
        orders := (generateSupplyPlan exPoints exConstraints none).1,
        production := (generateSupplyPlan exPoints exConstraints none).2.1,
        kpis := (generateSupplyPlan exPoints exConstraints none).2.2 }
      exRequestC4).map (fun k => k.base) =
    [((generateSupplyPlan exPoints exConstraints none).1.map
        (fun o => o.quantity)).sum +
      ((generateSupplyPlan exPoints exConstraints none).2.1.map
        (fun pr => pr.quantity)).sum] :=
  (claim_C10_total_volume_consistency exPoints exConstraints none
    (by decide) (by decide)).2 "p" "f" exRequestC4

/-- C1 (amended): in auto-selection mode (no forced model, history length
at least 4, non-empty horizon) the selector picks the strategy with the
lowest validation MAPE among all strategies that produced a validation
forecast — an infinite MAPE (holdout with no positive actual) still
counts as a candidate — breaking ties by the priority order arima,
prophet, xgboost; it falls back to Stub exactly when no strategy produced
a validation forecast at all, and it reruns the winner on the full
series, reporting it as chosen when that run succeeds and falling back to
Stub when it fails. -/
theorem claim_C1_auto_selection (O : StrategyOracles)
    (series : List (Date × ℚ)) (horizon_dates : List Date)
    (h4 : 4 ≤ series.length) (hhd : horizon_dates ≠ []) :
    (∀ am pm xm : Option (WithTop ℚ),
      minFirst (optEntry "arima" am ++ optEntry "prophet" pm ++
        optEntry "xgboost" xm) = specSelectAll am pm xm) ∧
    (specSelectAll ((validationMetrics O series).lookup "arima_mape")
        ((validationMetrics O series).lookup "prophet_mape")
        ((validationMetrics O series).lookup "xgb_mape") = none →
      (selectModelAndForecast O series horizon_dates none).chosen = "stub" ∧
      (selectModelAndForecast O series horizon_dates none).forecast =
        generateStubForecast O.sinF O.pi (seriesBase (series.map Prod.snd))
          horizon_dates.length) ∧
    (∀ best,
      specSelectAll ((validationMetrics O series).lookup "arima_mape")
        ((validationMetrics O series).lookup "prophet_mape")
        ((validationMetrics O series).lookup "xgb_mape") = some best →
      (∀ fc chosen,
        forecastWithName O series horizon_dates best = (some fc, chosen) →
        selectModelAndForecast O series horizon_dates none =
          { forecast := fc, chosen := chosen,
            metrics := validationMetrics O series }) ∧
      ((forecastWithName O series horizon_dates best).1 = none →
        (selectModelAndForecast O series horizon_dates none).chosen =
          "stub")) := by
  have h4n : ¬series.length < 4 := not_lt.mpr h4
  have hhdn : ¬horizon_dates.length = 0 := by
    intro h
    exact hhd (List.length_eq_zero.mp h)
  have hsel := selectModelAndForecast_auto O series horizon_dates h4n hhdn
  refine ⟨minFirst_eq_specSelectAll, ?_, ?_⟩
  · intro hnone
    have hmin : minFirst (scoreCandidates (validationMetrics O series)) =
        none := by
      unfold scoreCandidates
      rw [minFirst_eq_specSelectAll]
      exact hnone
    rw [hsel]
    simp only [autoSelectAndForecast]
    by_cases hm : validationMetrics O series = []
    · rw [if_pos hm]
      exact ⟨rfl, rfl⟩
    · rw [if_neg hm, hmin]
      exact ⟨rfl, rfl⟩
  · intro best hbest
    have hmin : minFirst (scoreCandidates (validationMetrics O series)) =
        some best := by
      unfold scoreCandidates
      rw [minFirst_eq_specSelectAll]
      exact hbest
    have hm : validationMetrics O series ≠ [] := by
      intro hm
      rw [hm] at hmin
      simp [scoreCandidates, minFirst, optEntry] at hmin
    constructor
    · intro fc chosen hfw
      rw [hsel]
      simp only [autoSelectAndForecast]
      rw [if_neg hm, hmin]
      dsimp only
      rw [hfw]
    · intro hfwn
      rw [hsel]
      simp only [autoSelectAndForecast]
      rw [if_neg hm, hmin]
      dsimp only
      cases hfw2 : forecastWithName O series horizon_dates best with
      | mk fcO ch =>
          rw [hfw2] at hfwn
          dsimp only at hfwn
          subst hfwn
          rfl

/-- C1 witness past the guard with all strategies failing validation. -/
theorem claim_C1_witness :
    (selectModelAndForecast exOraclesNone exSeriesC5 [9] none).chosen =
      "stub" := by
  have h := claim_C1_auto_selection exOraclesNone exSeriesC5 [9]
    (by decide) (by decide)
  exact (h.2.1 (by decide)).1

/-- C1 counterexample: on a 5-point history whose holdout actual is 0,
ARIMA is the only validated strategy and its MAPE is infinite; the claim
(finite MAPEs only, otherwise Stub) demands the Stub fallback, but the
selector still chooses and reports arima. -/
theorem claim_C1_counterexample :
    (selectModelAndForecast exOraclesC1 exSeriesC1 [5] none).chosen =
      "arima" ∧
    (validationMetrics exOraclesC1 exSeriesC1).lookup "arima_mape" =
      some ⊤ ∧
    specSelectClaim
      ((validationMetrics exOraclesC1 exSeriesC1).lookup "arima_mape")
      ((validationMetrics exOraclesC1 exSeriesC1).lookup "prophet_mape")
      ((validationMetrics exOraclesC1 exSeriesC1).lookup "xgb_mape") =
      none := by
  decide

/-- C5 (amended): (1) with history shorter than 4 points or an empty
horizon the selector returns the Stub forecast, reports "stub" and empty
metrics regardless of forced_model; (2) when a known forced strategy
fails or is inapplicable on the full series the selector falls back to
Stub and reports "stub" without error, returning the validation metrics
computed beforehand unchanged (not emptied); (3) those metrics contain no
entry for the forced strategy when it was also skipped during validation,
in particular the xgboost entries are absent whenever the history is
shorter than 6 points. -/
theorem claim_C5_forced_model_handling :
    (∀ (O : StrategyOracles) (series : List (Date × ℚ))
      (horizon_dates : List Date) (forced_model : Option String),
      series.length < 4 ∨ horizon_dates = [] →
      selectModelAndForecast O series horizon_dates forced_model =
        { forecast := generateStubForecast O.sinF O.pi
            (seriesBase (series.map Prod.snd)) horizon_dates.length,
          chosen := "stub", metrics := [] }) ∧
    (∀ (O : StrategyOracles) (series : List (Date × ℚ))
      (horizon_dates : List Date) (name : String),
      4 ≤ series.length → horizon_dates ≠ [] →
      knownModelName name = true →
      (forecastWithName O series horizon_dates name).1 = none →
      selectModelAndForecast O series horizon_dates (some name) =
        { forecast := generateStubForecast O.sinF O.pi
            (seriesBase (series.map Prod.snd)) horizon_dates.length,
          chosen := "stub", metrics := validationMetrics O series }) ∧
    (∀ (O : StrategyOracles) (series : List (Date × ℚ)),
      series.length < 6 →
      ∀ kv ∈ validationMetrics O series,
        kv.1 ≠ "xgb_mape" ∧ kv.1 ≠ "xgb_mae") := by
  refine ⟨?_, ?_, ?_⟩
  · intro O series horizon_dates forced_model h
    apply selectModelAndForecast_short
    rcases h with h | h
    · exact Or.inl h
    · exact Or.inr (by simp [h])
  · intro O series horizon_dates name hlen hhd hknown hfail
    have h4n : ¬series.length < 4 := not_lt.mpr hlen
    have hhdn : ¬horizon_dates.length = 0 := by
      intro h
      exact hhd (List.length_eq_zero.mp h)
    rw [selectModelAndForecast_forced O series horizon_dates name h4n hhdn
      hknown]
    cases hfw2 : forecastWithName O series horizon_dates name with
    | mk fcO ch =>
        rw [hfw2] at hfail
        dsimp only at hfail
        subst hfail
        rfl
  · intro O series hlen kv hkv
    have htrain :
        (series.take
          (series.length - min 3 (max 1 (series.length / 4)))).length < 6 := by
      rw [List.length_take]
      have := min_le_right (series.length - min 3 (max 1 (series.length / 4)))
        series.length
      omega
    have hxgb : forecastXgb O
        (series.take (series.length - min 3 (max 1 (series.length / 4))))
        (min 3 (max 1 (series.length / 4))) = none := by
      unfold forecastXgb
      rw [if_pos (Or.inl htrain)]
    simp only [validationMetrics] at hkv
    rw [hxgb] at hkv
    rw [List.append_nil] at hkv
    rcases List.mem_append.mp hkv with hkv2 | hkv2
    · split at hkv2
      · rcases List.mem_cons.mp hkv2 with rfl | hkv3
        · exact ⟨by simp, by simp⟩
        · rcases List.mem_singleton.mp hkv3 with rfl
          exact ⟨by simp, by simp⟩
      · cases hkv2
    · split at hkv2
      · rcases List.mem_cons.mp hkv2 with rfl | hkv3
        · exact ⟨by simp, by simp⟩
        · rcases List.mem_singleton.mp hkv3 with rfl
          exact ⟨by simp, by simp⟩
      · cases hkv2

/-- C5 counterexample: a forced "arima" that validated successfully but
fails on the full series falls back to Stub while the reported metrics
still contain the arima validation entries — they are not empty as the
claim states. -/
theorem claim_C5_counterexample :
    (selectModelAndForecast exOraclesC5 exSeriesC5 [5, 6]
      (some "arima")).chosen = "stub" ∧
    ((selectModelAndForecast exOraclesC5 exSeriesC5 [5, 6]
      (some "arima")).metrics.map Prod.fst) =
      ["arima_mape", "arima_mae"] := by
  decide

/-- C8 (amended): a request whose plan_id is a non-empty string uses the
plan stored under that id and fails with NotFound exactly when that id is
absent from the store; a request whose plan_id is None — or, due to Python
truthiness, the empty string — uses the first plan in store insertion
order whose forecast_id matches the request's, and fails with NoBasePlan
exactly when no stored plan has that forecast id. -/
theorem claim_C8_base_plan_resolution (plans : List (String × PlanResponse))
    (payload : ScenarioRequest) :
    (∀ pid, payload.plan_id = some pid → pid ≠ "" →
      (resolveBasePlan plans payload = Except.error ScenarioError.notFound ↔
        plans.lookup pid = none) ∧
      (∀ plan, resolveBasePlan plans payload = Except.ok plan →
        plans.lookup pid = some plan)) ∧
    ((payload.plan_id = none ∨ payload.plan_id = some "") →
      (resolveBasePlan plans payload =
          Except.error ScenarioError.noBasePlan ↔
        ∀ plan ∈ plans.map Prod.snd,
          plan.forecast_id ≠ payload.forecast_id) ∧
      (∀ plan, resolveBasePlan plans payload = Except.ok plan →
        ∃ pre post, plans.map Prod.snd = pre ++ plan :: post ∧
          plan.forecast_id = payload.forecast_id ∧
          ∀ q ∈ pre, q.forecast_id ≠ payload.forecast_id)) := by
  constructor
  · intro pid hpid hne
    have htr : strOptTruthy payload.plan_id = true := by
      rw [hpid]
      simpa [strOptTruthy] using hne
    have hgd : payload.plan_id.getD "" = pid := by rw [hpid]; rfl
    unfold resolveBasePlan
    rw [if_pos htr, hgd]
    constructor
    · cases hl : plans.lookup pid <;> simp [hl]
    · intro plan
      cases hl : plans.lookup pid with
      | none => simp [hl]
      | some q =>
          simp only [hl, Except.ok.injEq]
          rintro rfl
          rfl
  · intro hfalsy
    have htr : strOptTruthy payload.plan_id = false := by
      rcases hfalsy with h | h <;> simp [strOptTruthy, h]
    unfold resolveBasePlan
    rw [if_neg (by simp [htr])]
    constructor
    · cases hf : (plans.map Prod.snd).find?
          (fun candidate => candidate.forecast_id == payload.forecast_id) with
      | none =>
          simp only [hf]
          rw [List.find?_eq_none] at hf
          simpa using hf
      | some plan =>
          simp only [hf]
          constructor
          · intro h
            cases h
          · intro hall
            have := List.find?_some hf
            rw [beq_iff_eq] at this
            exact absurd this (hall plan (List.mem_of_find?_eq_some hf))
    · intro plan
      cases hf : (plans.map Prod.snd).find?
          (fun candidate => candidate.forecast_id == payload.forecast_id) with
      | none => simp [hf]
      | some plan2 =>
          simp only [hf, Except.ok.injEq]
          rintro rfl
          obtain ⟨pre, post, heq, hpa, hpre⟩ := find?_first_split _ _ _ hf
          refine ⟨pre, post, heq, by simpa using hpa, ?_⟩
          intro q hq
          simpa using hpre q hq

/-- C8 counterexample: a request that carries the explicit plan id `""`
(no plan is stored under that id, so the claim demands NotFound) is
resolved by forecast-id lookup instead and succeeds. -/
theorem claim_C8_counterexample :
    resolveBasePlan exStore exRequestEmptyId = Except.ok exPlan ∧
    exRequestEmptyId.plan_id = some "" ∧
    exStore.lookup "" = none := by decide

end IBP
